import Mathlib

/-!
The control-session core of the FTP proxy pftp.

A shallow embedding of `pftp/transfer_active.go` and `pftp/client_handler.go`.
Go strings are lists of characters; Go `int` is `Int` wrapped to 64 bits where
the program computes with it; fallible functions return `Except`.
-/

namespace Pftp

/-! ## Library functions used by the program -/

/-- Go string. -/
abbrev Str := List Char

deriving instance DecidableEq for Except

/-- The function strings.Split(s, sep) for a one-character separator: the
fields between separators, `[""]` for the empty string. -/
def Split (sep : Char) : Str → List Str
  | [] => [[]]
  | c :: cs =>
    if c = sep then [] :: Split sep cs
    else
      match Split sep cs with
      | [] => [[c]]
      | f :: fs => (c :: f) :: fs

/-- The function strings.Join(elems, sep) for a one-character separator. -/
def Join (sep : Char) : List Str → Str
  | [] => []
  | [f] => f
  | f :: g :: fs => f ++ sep :: Join sep (g :: fs)

/-- ASCII decimal digit. -/
def isDigit (c : Char) : Bool := decide (48 ≤ c.toNat) && decide (c.toNat ≤ 57)

/-- Value of a decimal digit character. -/
def digitVal (c : Char) : Nat := c.toNat - 48

/-- Value of a run of decimal digits, most significant first. -/
def valOf (ds : Str) : Nat := ds.foldl (fun acc c => acc * 10 + digitVal c) 0

/-- Digits of `n`, written into `acc` from the least significant one. -/
def digitsAux : Nat → Nat → Str → Str
  | 0, _, acc => acc
  | fuel + 1, n, acc =>
    if n / 10 = 0 then Char.ofNat (48 + n % 10) :: acc
    else digitsAux fuel (n / 10) (Char.ofNat (48 + n % 10) :: acc)

/-- Decimal text of a natural number (the verb %d on a non-negative int). -/
def natDigits (n : Nat) : Str := digitsAux (n + 1) n []

/-- Decimal text of an integer (the verb %d of fmt.Sprintf). -/
def itoa (v : Int) : Str :=
  if v < 0 then '-' :: natDigits v.natAbs else natDigits v.toNat

/-- Go `int` on a 64-bit platform: two's-complement wrap-around. -/
def wrapInt64 (x : Int) : Int := (x + 2 ^ 63) % 2 ^ 64 - 2 ^ 63

/-- The function strconv.Atoi: an optional sign followed by one or more decimal
digits, within the range of a 64-bit int. -/
def Atoi (s : Str) : Except Str Int :=
  let neg := s.head? = some '-'
  let body := if s.head? = some '-' ∨ s.head? = some '+' then s.tail else s
  if body = [] then .error "invalid syntax".toList
  else if body.all isDigit then
    let v : Int := if neg then - (valOf body : Int) else (valOf body : Int)
    if v < - 2 ^ 63 ∨ 2 ^ 63 ≤ v then .error "value out of range".toList
    else .ok v
  else .error "invalid syntax".toList

/-- A TCP end point (net.TCPAddr): the bytes of the IP address and the port. -/
structure TCPAddr where
  IP : List Nat
  Port : Nat
deriving DecidableEq, Repr

/-- The function net.SplitHostPort: the port is what follows the last colon;
a host in square brackets loses them; a host without brackets holds no colon;
no other bracket may occur. -/
def SplitHostPort (hostport : Str) : Except Str (Str × Str) :=
  let rev := hostport.reverse
  if ':' ∉ hostport then .error "missing port in address".toList
  else
    let port := (rev.takeWhile (fun c => c ≠ ':')).reverse
    let i := hostport.length - port.length - 1
    if hostport.head? = some '[' then
      if ']' ∉ hostport then .error "missing ']' in address".toList
      else
        let e := (hostport.takeWhile (fun c => c ≠ ']')).length
        if e + 1 = hostport.length then .error "missing port in address".toList
        else if e + 1 = i then
          if '[' ∈ hostport.drop 1 then .error "unexpected '[' in address".toList
          else if ']' ∈ hostport.drop (e + 1) then .error "unexpected ']' in address".toList
          else .ok ((hostport.take e).drop 1, port)
        else if (hostport.drop (e + 1)).head? = some ':' then
          .error "too many colons in address".toList
        else .error "missing port in address".toList
    else
      let host := hostport.take i
      if ':' ∈ host then .error "too many colons in address".toList
      else if '[' ∈ hostport then .error "unexpected '[' in address".toList
      else if ']' ∈ hostport then .error "unexpected ']' in address".toList
      else .ok (host, port)

/-- The digit loop of net.parsePort on a uint32 accumulator: `none` when a
character is not a digit (the text is a service name), otherwise the
accumulated value, saturated to 2^32 - 1 once it reaches 2^30 or the addition
overflows. -/
def parsePortLoop : Nat → Str → Option Nat
  | n, [] => some n
  | n, d :: ds =>
    if isDigit d then
      if 2 ^ 30 ≤ n then some (2 ^ 32 - 1)
      else
        let n10 := (n * 10) % 2 ^ 32
        let nn := (n10 + digitVal d) % 2 ^ 32
        if nn < n10 then some (2 ^ 32 - 1)
        else parsePortLoop nn ds
    else none

/-- The function net.parsePort: a signed decimal port number, clamped to
±2^30; `none` when the text is not a number and needs a service lookup. -/
def parsePort (service : Str) : Option Int :=
  if service = [] then some 0
  else
    let neg := service.head? = some '-'
    let body := if service.head? = some '+' ∨ service.head? = some '-' then service.tail else service
    match parsePortLoop 0 body with
    | none => none
    | some n =>
      let port : Int :=
        if ¬ neg ∧ 2 ^ 30 ≤ n then 2 ^ 30 - 1
        else if neg ∧ 2 ^ 30 < n then 2 ^ 30
        else (n : Int)
      some (if neg then - port else port)

/-- One field of a dotted-decimal IPv4 literal: one to three digits, no
leading zero, at most 255. -/
def parseIPv4Field (f : Str) : Option Nat :=
  if f = [] then none
  else if ¬ f.all isDigit then none
  else if 1 < f.length ∧ f.head? = some '0' then none
  else if 255 < valOf f then none
  else some (valOf f)

/-- An IPv4 literal: exactly four fields separated by dots. -/
def parseIPv4 (host : Str) : Option (List Nat) :=
  match Split '.' host with
  | [a, b, c, d] =>
    match parseIPv4Field a, parseIPv4Field b, parseIPv4Field c, parseIPv4Field d with
    | some a, some b, some c, some d => some [a, b, c, d]
    | _, _, _, _ => none
  | _ => none

/-- The function net.ResolveTCPAddr("tcp", addr). The text is split at its last
colon; the port is a decimal number within 0..65535; an empty host gives the
wildcard address; a host that is an IPv4 literal is that address; every other
host (a name to look up, an IPv6 literal) is handed to `lookupHost`, which
stands for the resolver of the machine. A port that is a service name cannot
come from a port printed with %d and is reported as an error. -/
def ResolveTCPAddr (lookupHost : Str → Option (List Nat)) (addr : Str) : Except Str TCPAddr :=
  match SplitHostPort addr with
  | .error e => .error e
  | .ok (host, port) =>
    match parsePort port with
    | none => .error "unknown port".toList
    | some portnum =>
      if portnum < 0 ∨ 65535 < portnum then .error "invalid port".toList
      else if host = [] then .ok ⟨[], portnum.toNat⟩
      else
        match parseIPv4 host with
        | some ip => .ok ⟨ip, portnum.toNat⟩
        | none =>
          match lookupHost host with
          | some ip => .ok ⟨ip, portnum.toNat⟩
          | none => .error "no such host".toList

/-- The method (*net.TCPAddr).String for an IPv4 or wildcard address: the
dotted-decimal host, a colon, the port. -/
def TCPAddr.String (a : TCPAddr) : Str :=
  Join '.' (a.IP.map natDigits) ++ ':' :: natDigits a.Port

/-! ## transfer_active.go: the address codec -/

/-- The function parseRemoteAddr of transfer_active.go. -/
def parseRemoteAddr (lookupHost : Str → Option (List Nat)) (param : Str) : Except Str TCPAddr :=
  let params := Split ',' param
  if params.length ≠ 6 then .error "bad number of args".toList
  else
    let ip := Join '.' (params.take 4)
    match Atoi (params.getD 4 []) with
    | .error err => .error err
    | .ok p1 =>
      match Atoi (params.getD 5 []) with
      | .error err => .error err
      | .ok p2 =>
        let port := wrapInt64 (wrapInt64 (p1 * 2 ^ 8) + p2)
        ResolveTCPAddr lookupHost (ip ++ ':' :: itoa port)

/-- The PORT argument built by handlePORT (lines 38-44): the host part of the
control connection's local address split at dots, and the two bytes of the
listener's port. `none` when the host part has fewer than four dot-separated
fields, where indexing `quads` faults. -/
def portArgument (localAddr : Str) (port : Nat) : Option Str :=
  let p1 := port / 256
  let p2 := port - p1 * 256
  let ip := (Split ':' localAddr).headD []
  match Split '.' ip with
  | q0 :: q1 :: q2 :: q3 :: _ =>
    some (q0 ++ ',' :: q1 ++ ',' :: q2 ++ ',' :: q3 ++ ',' :: natDigits p1 ++ ',' :: natDigits p2)
  | _ => none

/-- The wire text `a,b,c,d,p1,p2`, each number in decimal. -/
def portText (a b c d p1 p2 : Nat) : Str :=
  natDigits a ++ ',' :: (natDigits b ++ ',' :: (natDigits c ++ ',' :: (natDigits d ++ ',' ::
    (natDigits p1 ++ ',' :: natDigits p2))))

/-- The resolver of a machine that resolves no name. -/
def noLookup : Str → Option (List Nat) := fun _ => none

/-- The function strings.HasSuffix. -/
def HasSuffix (s suffix : Str) : Bool :=
  decide (suffix.length ≤ s.length) && decide (s.drop (s.length - suffix.length) = suffix)

/-- One rune of strings.ToUpper: exact on ASCII and on the two other runes
whose upper case is an ASCII letter (U+017F to S, U+0131 to I). Every other
rune has an image outside ASCII, which no comparison of this program tells
apart from the rune itself, and is left as it is. -/
def toUpperRune (c : Char) : Char :=
  if 97 ≤ c.toNat ∧ c.toNat ≤ 122 then Char.ofNat (c.toNat - 32)
  else if c.toNat = 383 then 'S'
  else if c.toNat = 305 then 'I'
  else c

/-- The function strings.ToUpper. -/
def ToUpper (s : Str) : Str := s.map toUpperRune

/-- The function strings.Trim(s, cutset). -/
def Trim (cutset : Str) (s : Str) : Str :=
  ((s.dropWhile (fun c => decide (c ∈ cutset))).reverse.dropWhile (fun c => decide (c ∈ cutset))).reverse

/-- The function strings.SplitN(s, " ", 2): the text before the first space
and, when there is a space, the text after it. -/
def SplitN2 (s : Str) : List Str :=
  if ' ' ∈ s then [s.takeWhile (fun c => c ≠ ' '), (s.dropWhile (fun c => c ≠ ' ')).tail]
  else [s]

/-- A decimal number: one or more decimal digits. -/
def isDecimal (f : Str) : Bool := decide (f ≠ []) && f.all isDigit

/-- A decimal number in 0..255: one or more decimal digits of value at most
255. Leading zeros are allowed. -/
def isOctet (f : Str) : Bool := isDecimal f && decide (valOf f ≤ 255)

/-- A decimal number written as %d prints it: no zero in front of another
digit. -/
def noLeadingZero (f : Str) : Bool := !(decide (1 < f.length) && decide (f.head? = some '0'))

/-- The wire text of six fields: the fields joined with commas. -/
def fieldsText (f0 f1 f2 f3 f4 f5 : Str) : Str :=
  f0 ++ ',' :: (f1 ++ ',' :: (f2 ++ ',' :: (f3 ++ ',' :: (f4 ++ ',' :: f5))))

/-- A decimal integer: an optional sign, then one or more decimal digits. -/
def isSignedDecimal (f : Str) : Bool :=
  isDecimal (if f.head? = some '-' ∨ f.head? = some '+' then f.tail else f)

/-! ## The collaborators outside src, as one session sees them -/

/-- Modelled from the spec: the Relay (type ProxyServer), whose code is not
under src and which the session uses as a black box. A relay is known by the
timeout, the connection and the address it was built with. -/
structure ProxyServer where
  timeout : Int
  conn : Nat
  addr : Str
deriving DecidableEq, Repr

/-- A listening socket: its port, the outcomes of its coming Accept calls (a
connection, or `none` for an error such as a closed listener), the outcome
`later` of every Accept call after those, and the connections accepted so
far. Every Accept call of a script returns: a call that waits for ever for a
connection has no outcome and is not part of any script. -/
structure Listener where
  port : Nat
  pending : List (Option Nat)
  later : Option Nat
  accepted : List Nat
deriving DecidableEq, Repr

/-- The network around one session: the scripted outcomes of the calls that
leave the program, and the traffic produced so far.
`originIn`: coming results of ReadFromOrigin (`none` is a read error, and so is
every read after the script); `clientSend`, `originSend`: coming results of
SendToClient and SendToOrigin (`false` is an error; success after the script);
`dial`: coming results of NewProxyServer (failure after the script); `listen`:
coming results of net.ListenTCP; `toClient`, `toOrigin`: what has been written
to the client and sent to the origin, in order; `reads`: number of
ReadFromOrigin calls; `started`: relays whose Start was launched. -/
structure Net where
  originIn : List (Option Str)
  clientSend : List Bool
  originSend : List Bool
  dial : List Bool
  listen : List (Option Listener)
  toClient : List Str
  toOrigin : List Str
  reads : Nat
  started : List ProxyServer
deriving DecidableEq, Repr

/-- Modelled from the spec: the server and its configuration (type FtpServer,
declared outside src), with the fields the session code reads or writes: the
connection counter, the connection ceiling, the idle and relay timeouts,
whether a TLS configuration is present, and whether the active-mode listener
binds to an arbitrary port. -/
structure FtpServer where
  ClientCounter : Int
  MaxConnections : Int
  IdleTimeout : Int
  ProxyTimeout : Int
  TLSConfig : Bool
  UseUnknownActiveDataPort : Bool
deriving DecidableEq, Repr

/-- The client connection: its local address, whether it is wrapped in TLS,
whether it was closed. -/
structure Conn where
  localAddr : Str
  tls : Bool
  closed : Bool
deriving DecidableEq, Repr

/-! ## transfer_active.go: the active transfer handler -/

/-- The struct activeTransferHandler. -/
structure activeTransferHandler where
  listener : Listener
  clientAddr : TCPAddr
  proxyServer : Option ProxyServer
deriving DecidableEq, Repr

/-- The interface transferHandler: the active variant of transfer_active.go,
and the passive one, which is outside src and is represented by what its Open
returns. -/
inductive transferHandler where
  | active (a : activeTransferHandler)
  | passive (relay : Except Str ProxyServer)
deriving DecidableEq

/-- The struct clientHandler, with the network in place of its reader and
writer; `reader` tells whether the reader is non-nil. -/
structure clientHandler where
  id : Nat
  daddy : FtpServer
  conn : Conn
  reader : Bool
  line : Str
  command : Str
  param : Str
  ctxRnfr : Str
  ctxRest : Int
  transferTLS : Bool
  transfer : Option transferHandler
  controlProxy : Option ProxyServer
  transferProxy : Option ProxyServer
  net : Net
deriving DecidableEq

/-- What running a handler gives: the session afterwards, and the value of the
fault (Go panic) that interrupted it, if any. -/
abbrev Run := clientHandler × Option Str

/-- Modelled from the spec: the function NewProxyServer, which creates a
Relay and is not under src. It takes its outcome from the script. -/
def NewProxyServer (c : clientHandler) (timeout : Int) (conn : Nat) (addr : Str) :
    clientHandler × Except Str ProxyServer :=
  match c.net.dial with
  | true :: rest => ({ c with net := { c.net with dial := rest } }, .ok ⟨timeout, conn, addr⟩)
  | false :: rest => ({ c with net := { c.net with dial := rest } }, .error "dial error".toList)
  | [] => (c, .error "dial error".toList)

/-- Modelled from the spec: the method ReadFromOrigin of the Relay, not under
src. It reads one line from the origin, or fails. -/
def ReadFromOrigin (c : clientHandler) : clientHandler × Option Str :=
  match c.net.originIn with
  | [] => ({ c with net := { c.net with reads := c.net.reads + 1 } }, none)
  | r :: rest => ({ c with net := { c.net with originIn := rest, reads := c.net.reads + 1 } }, r)

/-- Modelled from the spec: the method SendToClient of the Relay, not under
src. The line reaches the client unless the call fails. -/
def SendToClient (c : clientHandler) (b : Str) : clientHandler × Bool :=
  match c.net.clientSend with
  | false :: rest => ({ c with net := { c.net with clientSend := rest } }, false)
  | true :: rest =>
    ({ c with net := { c.net with clientSend := rest, toClient := c.net.toClient ++ [b] } }, true)
  | [] => ({ c with net := { c.net with toClient := c.net.toClient ++ [b] } }, true)

/-- Modelled from the spec: the method SendToOriginWithProxy of the Relay,
not under src. It forwards the line to the origin; its callers ignore what it
returns. -/
def SendToOriginWithProxy (c : clientHandler) (line : Str) : clientHandler :=
  { c with net := { c.net with toOrigin := c.net.toOrigin ++ [line] } }

/-- Modelled from the spec: the method SendToOrigin of the Relay, not under
src. The line reaches the origin unless the call fails. -/
def SendToOrigin (c : clientHandler) (line : Str) : clientHandler × Bool :=
  match c.net.originSend with
  | false :: rest => ({ c with net := { c.net with originSend := rest } }, false)
  | true :: rest =>
    ({ c with net := { c.net with originSend := rest, toOrigin := c.net.toOrigin ++ [line] } }, true)
  | [] => ({ c with net := { c.net with toOrigin := c.net.toOrigin ++ [line] } }, true)

/-- The method writeLine: the line and CRLF, flushed to the client. -/
def writeLine (c : clientHandler) (line : Str) : clientHandler :=
  { c with net := { c.net with toClient := c.net.toClient ++ [line ++ "\r\n".toList] } }

/-- The method writeMessage. -/
def writeMessage (c : clientHandler) (code : Int) (message : Str) : clientHandler :=
  writeLine c (itoa code ++ ' ' :: message)

/-- The method Accept of a listener (net package). -/
def Listener.Accept (l : Listener) : Listener × Option Nat :=
  match l.pending with
  | [] =>
    match l.later with
    | none => (l, none)
    | some conn => ({ l with accepted := l.accepted ++ [conn] }, some conn)
  | none :: rest => ({ l with pending := rest }, none)
  | some conn :: rest => ({ l with pending := rest, accepted := l.accepted ++ [conn] }, some conn)

/-- The method Open of activeTransferHandler, run inside a session (the
session holds the outcomes of NewProxyServer). Returns the session, the
handler afterwards and what Open returns. -/
def activeTransferHandler.Open (a : activeTransferHandler) (c : clientHandler) :
    clientHandler × activeTransferHandler × Except Str ProxyServer :=
  match a.listener.Accept with
  | (l, none) => (c, { a with listener := l }, .error "accept error".toList)
  | (l, some conn) =>
    let a1 := { a with listener := l }
    match a1.proxyServer with
    | none =>
      match NewProxyServer c 60 conn a1.clientAddr.String with
      | (c1, .error err) => (c1, a1, .error err)
      | (c1, .ok proxy) => (c1, { a1 with proxyServer := some proxy }, .ok proxy)
    | some proxy => (c, a1, .ok proxy)

/-- The method Close of activeTransferHandler. -/
def activeTransferHandler.Close (a : activeTransferHandler) : activeTransferHandler :=
  match a.proxyServer with
  | some _ => { a with proxyServer := none }
  | none => a

/-- Text of the fault raised by a call through a nil relay. -/
def nilFault : Str := "runtime error: invalid memory address or nil pointer dereference".toList

/-- Text of the fault raised by indexing past the end. -/
def indexFault : Str := "runtime error: index out of range".toList

/-- The method handlePORT of transfer_active.go. The misspelt field
`controleProxy` of the source is the control relay. -/
def handlePORT (lookupHost : Str → Option (List Nat)) (c : clientHandler) : Run :=
  match parseRemoteAddr lookupHost c.param with
  | .error err => (writeMessage c 500 ("Problem parsing PORT: ".toList ++ err), none)
  | .ok raddr =>
    match c.net.listen with
    | [] => (writeMessage c 500 "Problem parsing PORT: listen error".toList, none)
    | none :: rest =>
      (writeMessage { c with net := { c.net with listen := rest } } 500
        "Problem parsing PORT: listen error".toList, none)
    | some l :: rest =>
      let tcpListener : Listener :=
        if c.daddy.UseUnknownActiveDataPort then l else { l with port := 20 }
      let c1 := { c with net := { c.net with listen := rest },
                         transfer := some (.active ⟨tcpListener, raddr, none⟩) }
      match portArgument c1.conn.localAddr tcpListener.port with
      | none => (c1, some indexFault)
      | some arg =>
        match c1.controlProxy with
        | none => (c1, some nilFault)
        | some _ =>
          match SendToOrigin c1 ("PORT ".toList ++ arg ++ "\r\n".toList) with
          | (c2, false) => (writeMessage c2 500 "Problem parsing PORT: send error".toList, none)
          | (c2, true) => (writeMessage c2 200 "PORT command successful".toList, none)

/-! ## client_handler.go -/

/-- The struct CommandDescription. -/
structure CommandDescription where
  Open : Bool
  Fn : clientHandler → Run

/-- The method `end`. -/
def clientHandler.end_ (c : clientHandler) : clientHandler :=
  { c with daddy := { c.daddy with ClientCounter := c.daddy.ClientCounter - 1 } }

/-- The method WelcomeUser: the message and whether it is an error. -/
def WelcomeUser (c : clientHandler) : Str × Bool :=
  if c.daddy.ClientCounter > c.daddy.MaxConnections then
    ("Cannot accept any additional client".toList, true)
  else ("Welcome on ftpserver".toList, false)

/-- The function parseLine. -/
def parseLine (line : Str) : Str × Str :=
  match SplitN2 (Trim "\r\n".toList line) with
  | [p0] => (p0, [])
  | p0 :: p1 :: _ => (p0, p1)
  | [] => ([], [])

/-- The method handleUSER. -/
def handleUSER (c : clientHandler) : Run :=
  match NewProxyServer c c.daddy.ProxyTimeout 0 "localhost:2321".toList with
  | (c1, .error _) => (writeMessage c1 530 "I can't deal with you (proxy error)".toList, none)
  | (c1, .ok p) =>
    let c2 := (ReadFromOrigin c1).1
    ({ c2 with controlProxy := some p }, none)

/-- The method handleAUTH. -/
def handleAUTH (c : clientHandler) : Run :=
  if c.daddy.TLSConfig then
    let c1 := writeMessage c 234 "AUTH command ok. Expecting TLS Negotiation.".toList
    ({ c1 with conn := { c1.conn with tls := true }, reader := true }, none)
  else (writeMessage c 550 "Cannot get a TLS config".toList, none)

/-- The method TransferOpen. -/
def TransferOpen (c : clientHandler) : clientHandler × Except Str ProxyServer :=
  match c.transfer with
  | none => (c, .error "no passive connection declared".toList)
  | some (.active a) =>
    match a.Open c with
    | (c1, a1, r) => ({ c1 with transfer := some (.active a1) }, r)
  | some (.passive r) => (c, r)

/-- The method TransferClose. -/
def TransferClose (c : clientHandler) : clientHandler := { c with transfer := none }

/-- The method handleLIST. A call through a nil control relay faults. -/
def handleLIST (c : clientHandler) : Run :=
  match c.controlProxy with
  | none => (c, some nilFault)
  | some _ =>
    let c1 := SendToOriginWithProxy c c.line
    match TransferOpen c1 with
    | (c2, .error _) => (c2, none)
    | (c2, .ok proxy) =>
      let c3 := { c2 with net := { c2.net with started := c2.net.started ++ [proxy] } }
      match ReadFromOrigin c3 with
      | (c4, none) => (c4, none)
      | (c4, some res) => ((SendToClient c4 res).1, none)

/-- The loop of handleFEAT, run on the script of coming origin reads. -/
def featLoop : List (Option Str) → clientHandler → Run
  | [], c => ({ c with net := { c.net with reads := c.net.reads + 1 } }, none)
  | none :: rest, c =>
    ({ c with net := { c.net with originIn := rest, reads := c.net.reads + 1 } }, none)
  | some b :: rest, c =>
    let c1 := { c with net := { c.net with originIn := rest, reads := c.net.reads + 1 } }
    match SendToClient c1 b with
    | (c2, false) => (c2, none)
    | (c2, true) =>
      if HasSuffix (ToUpper b) "END".toList then (c2, none)
      else
        match b with
        | [] => (c2, some indexFault)
        | b0 :: _ => if b0 = '5' then (c2, none) else featLoop rest c2

/-- The method handleFEAT. A call through a nil control relay faults. -/
def handleFEAT (c : clientHandler) : Run :=
  match c.controlProxy with
  | none => (c, some nilFault)
  | some _ =>
    let c1 := SendToOriginWithProxy c c.line
    featLoop c1.net.originIn c1

/-- The registry built by `init`. The handler of EPSV, handlePASV, is outside
src and is a parameter. -/
def commandsMap (handlePASV : clientHandler → Run) (verb : Str) : Option CommandDescription :=
  if verb = "USER".toList then some ⟨false, handleUSER⟩
  else if verb = "AUTH".toList then some ⟨false, handleAUTH⟩
  else if verb = "EPSV".toList then some ⟨false, handlePASV⟩
  else if verb = "LIST".toList then some ⟨false, handleLIST⟩
  else if verb = "FEAT".toList then some ⟨false, handleFEAT⟩
  else none

/-- The body of handleCommand after the registry lookup: the handler, if any,
then the generic forward of the raw line. A fault skips what follows it. -/
def dispatch (cmdDesc : Option CommandDescription) (command line : Str) (c : clientHandler) : Run :=
  let r : Run :=
    match cmdDesc with
    | some d => d.Fn c
    | none => (c, none)
  match r with
  | (c1, some fault) => (c1, some fault)
  | (c1, none) =>
    if c1.controlProxy ≠ none ∧ command ≠ "EPSV".toList ∧ command ≠ "FEAT".toList then
      (SendToOriginWithProxy c1 line, none)
    else (c1, none)

/-- The method handleCommand, over the registry `cmds`. The deferred function
recovers a fault and answers it with a 500 reply. -/
def handleCommand (cmds : Str → Option CommandDescription) (line : Str) (c : clientHandler) :
    clientHandler :=
  let command := (parseLine line).1
  let param := (parseLine line).2
  let c0 := { c with command := ToUpper command, param := param, line := line }
  match dispatch (cmds c0.command) command line c0 with
  | (c1, some r) => writeMessage c1 500 ("Internal error: ".toList ++ r)
  | (c1, none) => c1

/-- The result of one ReadString on the client connection. -/
inductive ReadResult where
  | line (s : Str)
  | timeout
  | netError
  | eof
  | readError
deriving DecidableEq

/-- The `for` loop of HandleCommands, run on the script of coming client
reads; after the script the client has closed the connection (end of
stream). Deadlines are not modelled. -/
def commandLoop (cmds : Str → Option CommandDescription) : List ReadResult → clientHandler → clientHandler
  | [], c => c
  | r :: rest, c =>
    if c.reader = false then c
    else
      match r with
      | .line l => commandLoop cmds rest (handleCommand cmds l c)
      | .timeout =>
        let c1 := writeMessage c 421
          ("command timeout (".toList ++ itoa c.daddy.IdleTimeout ++
            " seconds): closing control connection".toList)
        { c1 with conn := { c1.conn with closed := true } }
      | .netError => c
      | .eof => c
      | .readError => c

/-- The method HandleCommands, over the registry `cmds` and the script of
coming client reads. The deferred `end` runs on every way out. -/
def HandleCommands (cmds : Str → Option CommandDescription) (input : List ReadResult)
    (c : clientHandler) : clientHandler :=
  match WelcomeUser c with
  | (msg, false) => (commandLoop cmds input (writeMessage c 220 msg)).end_
  | (msg, true) => (writeMessage c 500 msg).end_

/-- A handler for EPSV that does nothing, for running the registry where
handlePASV is not reached. -/
def noPASV : clientHandler → Run := fun c => (c, none)

/-- A fresh session on the control connection 10.0.0.7:21, as newClientHandler
builds it, with nothing scripted on the network. -/
def session0 : clientHandler :=
  { id := 0
    daddy := ⟨1, 10, 0, 60, false, true⟩
    conn := ⟨"10.0.0.7:21".toList, false, false⟩
    reader := true
    line := [], command := [], param := []
    ctxRnfr := [], ctxRest := 0, transferTLS := false
    transfer := none, controlProxy := none, transferProxy := none
    net := ⟨[], [], [], [], [], [], [], 0, []⟩ }

/-- The control relay handleUSER builds for `session0`. -/
def relay0 : ProxyServer := ⟨60, 0, "localhost:2321".toList⟩

/-- A resolver that knows one name. -/
def exampleLookup : Str → Option (List Nat) :=
  fun h => if h = "www.example.com.".toList then some [93, 184, 216, 34] else none

/-- The session `session0` after the line "PORT 192,168,1,5,200", which has
five fields. -/
def sessionFiveFields : clientHandler := { session0 with param := "192,168,1,5,200".toList }

/-- The session `session0` with a control relay bound. -/
def sessionBound : clientHandler := { session0 with controlProxy := some relay0 }

/-- The session `sessionBound` after the line "PORT [1,2,3,4],0,21", with one
listener to be had on port 40000. -/
def sessionBracket : clientHandler :=
  { sessionBound with
    param := "[1,2,3,4],0,21".toList
    net := { session0.net with listen := [some ⟨40000, [], none, []⟩] } }

/-- An active transfer handler as handlePORT builds it for the client address
192.168.1.5:51225, on whose listener Accept returns the origin's connection 1,
then a connection 2, and fails afterwards. -/
def activeTwoWaiting : activeTransferHandler :=
  ⟨⟨40000, [some 1, some 2], none, []⟩, ⟨[192, 168, 1, 5], 51225⟩, none⟩

/-- The same handler on whose listener Accept returns connection 1 and fails
on every later call (the listener has been closed). -/
def activeOneWaiting : activeTransferHandler :=
  ⟨⟨40000, [some 1], none, []⟩, ⟨[192, 168, 1, 5], 51225⟩, none⟩

/-- The session `sessionBound` in which NewProxyServer succeeds once. -/
def sessionDial : clientHandler :=
  { sessionBound with net := { session0.net with dial := [true] } }

/-- The data relay that Open builds on connection 1 for 192.168.1.5:51225. -/
def dataRelay : ProxyServer := ⟨60, 1, "192.168.1.5:51225".toList⟩

/-- The condition that ends the loop of handleFEAT: the line, in upper case,
ends with END, or its first character is 5. -/
def isLastLine (b : Str) : Bool :=
  HasSuffix (ToUpper b) "END".toList || decide (b.head? = some '5')

/-- The session `sessionBound` with the origin about to return an empty line
and then "211 END". -/
def sessionFeatEmpty : clientHandler :=
  { sessionBound with
    line := "FEAT\r\n".toList
    net := { session0.net with originIn := [some [], some "211 END".toList] } }

/-- The session `sessionBound` with the origin about to return the single
line "211 END of features". -/
def sessionFeatProse : clientHandler :=
  { sessionBound with
    line := "FEAT\r\n".toList
    net := { session0.net with originIn := [some "211 END of features".toList] } }

/-- The session `sessionBound` with the origin about to return a three-line
reply to FEAT and then one more line. -/
def sessionFeat : clientHandler :=
  { sessionBound with
    line := "FEAT\r\n".toList
    net := { session0.net with
      originIn := [some "211-Features:".toList, some " UTF8".toList, some "211 END".toList,
        some "220 next".toList] } }

/-- A script of client reads whose first read ends the session without a
reply: the end of the stream (also when nothing is scripted), a network error
that is not a timeout, or another read error. -/
def endsReads : List ReadResult → Bool
  | [] => true
  | .eof :: _ => true
  | .netError :: _ => true
  | .readError :: _ => true
  | .line _ :: _ => false
  | .timeout :: _ => false

/-- The session `session0` after the greeting of HandleCommands. -/
def sessionGreeted : clientHandler := writeMessage session0 220 "Welcome on ftpserver".toList

/-- The session `sessionGreeted` once handleCommand has recorded the line
"LIST". -/
def sessionList : clientHandler :=
  { sessionGreeted with command := "LIST".toList, param := [], line := "LIST\r\n".toList }

/-! ## Lemmas on the library functions -/

theorem Split_ne_nil (sep : Char) (s : Str) : Split sep s ≠ [] := by
  induction s with
  | nil => simp [Split]
  | cons c cs ih =>
    unfold Split
    split
    · simp
    · split <;> simp

theorem Split_of_not_mem (sep : Char) (s : Str) (h : sep ∉ s) : Split sep s = [s] := by
  induction s with
  | nil => simp [Split]
  | cons c cs ih =>
    have hc : c ≠ sep := fun e => h (by simp [e])
    have hcs : sep ∉ cs := fun e => h (by simp [e])
    simp [Split, hc, ih hcs]

theorem Split_append_sep (sep : Char) (pre rest : Str) (h : sep ∉ pre) :
    Split sep (pre ++ sep :: rest) = pre :: Split sep rest := by
  induction pre with
  | nil => simp [Split]
  | cons c cs ih =>
    have hc : c ≠ sep := fun e => h (by simp [e])
    have hcs : sep ∉ cs := fun e => h (by simp [e])
    simp [Split, hc, ih hcs]

theorem digit_facts : ∀ d, d < 10 →
    isDigit (Char.ofNat (48 + d)) = true ∧ digitVal (Char.ofNat (48 + d)) = d := by
  decide

theorem valOf_append_one (ds : Str) (c : Char) : valOf (ds ++ [c]) = valOf ds * 10 + digitVal c := by
  simp [valOf, List.foldl_append]

theorem digitVal_zero_of_head (x : Char) (hx : isDigit x = true) (h0 : digitVal x = 0) : x = '0' := by
  have h1 : x.toNat = 48 := by
    simp [isDigit, digitVal] at hx h0
    omega
  apply Char.ext
  apply UInt32.ext
  simpa [Char.toNat, UInt32.toNat] using h1

/-- What `digitsAux` writes in front of the accumulator. -/
theorem digitsAux_spec : ∀ (fuel n : Nat) (acc : Str), n < fuel →
    ∃ ds : Str, digitsAux fuel n acc = ds ++ acc ∧ ds ≠ [] ∧ ds.all isDigit = true ∧
      valOf ds = n ∧ (1 < ds.length → ds.head? ≠ some '0') := by
  intro fuel
  induction fuel with
  | zero => intro n acc h; omega
  | succ fuel ih =>
    intro n acc hn
    have hd := digit_facts (n % 10) (Nat.mod_lt _ (by norm_num))
    unfold digitsAux
    by_cases h0 : n / 10 = 0
    · refine ⟨[Char.ofNat (48 + n % 10)], by simp [h0], by simp, by simp [hd.1], ?_, by simp⟩
      have hn10 : n % 10 = n := by omega
      have h2 := hd.2
      simp only [valOf, List.foldl_cons, List.foldl_nil, Nat.zero_mul, Nat.zero_add, h2]
      exact hn10
    · have hlt : n / 10 < fuel := by omega
      obtain ⟨ds, h1, h2, h3, h4, h5⟩ := ih (n / 10) (Char.ofNat (48 + n % 10) :: acc) hlt
      refine ⟨ds ++ [Char.ofNat (48 + n % 10)], by simp [h0, h1], by simp, ?_, ?_, ?_⟩
      · simp [List.all_append, h3, hd.1]
      · rw [valOf_append_one, h4, hd.2]; omega
      · intro _
        cases ds with
        | nil => exact absurd rfl h2
        | cons x xs =>
          cases xs with
          | nil =>
            simp only [List.cons_append, List.head?_cons, ne_eq, Option.some.injEq]
            intro hx
            have : valOf [x] = 0 := by rw [hx]; decide
            omega
          | cons y ys =>
            have := h5 (by simp)
            simpa using this

theorem natDigits_spec (n : Nat) :
    natDigits n ≠ [] ∧ (natDigits n).all isDigit = true ∧ valOf (natDigits n) = n ∧
      (1 < (natDigits n).length → (natDigits n).head? ≠ some '0') := by
  obtain ⟨ds, h1, h2, h3, h4, h5⟩ := digitsAux_spec (n + 1) n [] (Nat.lt_succ_self n)
  have : natDigits n = ds := by simp [natDigits, h1]
  rw [this]
  exact ⟨h2, h3, h4, h5⟩

theorem not_mem_of_all_digits (ds : Str) (h : ds.all isDigit = true) (c : Char)
    (hc : isDigit c = false) : c ∉ ds := by
  intro hm
  have := List.all_eq_true.mp h c hm
  rw [hc] at this
  exact absurd this (by simp)

theorem head_ne_of_all_digits (ds : Str) (h : ds.all isDigit = true) (c : Char)
    (hc : isDigit c = false) : ds.head? ≠ some c := by
  intro hh
  cases ds with
  | nil => simp at hh
  | cons x xs =>
    simp at hh
    exact not_mem_of_all_digits (x :: xs) h c hc (by simp [hh])

theorem Atoi_digits (ds : Str) (h1 : ds ≠ []) (h2 : ds.all isDigit = true)
    (h3 : valOf ds < 2 ^ 63) : Atoi ds = .ok (valOf ds : Int) := by
  have hm : ds.head? ≠ some '-' := head_ne_of_all_digits ds h2 _ (by decide)
  have hp : ds.head? ≠ some '+' := head_ne_of_all_digits ds h2 _ (by decide)
  have hr : ¬ ((valOf ds : Int) < - 2 ^ 63 ∨ (2 : Int) ^ 63 ≤ (valOf ds : Int)) := by
    have : ((valOf ds : Nat) : Int) < 2 ^ 63 := by exact_mod_cast h3
    omega
  simp only [Atoi, hm, hp, or_self, if_false, h1, h2, if_true, hr]

theorem Atoi_natDigits (n : Nat) (h : n < 2 ^ 63) : Atoi (natDigits n) = .ok (n : Int) := by
  obtain ⟨h1, h2, h3, _⟩ := natDigits_spec n
  have := Atoi_digits (natDigits n) h1 h2 (by rw [h3]; exact h)
  rw [h3] at this
  exact this

theorem foldl_digits_ge (ds : Str) (a : Nat) :
    a ≤ ds.foldl (fun acc c => acc * 10 + digitVal c) a := by
  induction ds generalizing a with
  | nil => simp
  | cons d ds ih =>
    simp only [List.foldl_cons]
    have := ih (a * 10 + digitVal d)
    omega

theorem parsePortLoop_small (ds : Str) (a : Nat) (h : ds.all isDigit = true)
    (hb : ds.foldl (fun acc c => acc * 10 + digitVal c) a < 2 ^ 30) :
    parsePortLoop a ds = some (ds.foldl (fun acc c => acc * 10 + digitVal c) a) := by
  induction ds generalizing a with
  | nil => simp [parsePortLoop]
  | cons d ds ih =>
    simp only [List.all_cons, Bool.and_eq_true] at h
    simp only [List.foldl_cons] at hb ⊢
    have hge := foldl_digits_ge ds (a * 10 + digitVal d)
    have h1 : ¬ 2 ^ 30 ≤ a := by omega
    have h2 : (a * 10) % 2 ^ 32 = a * 10 := Nat.mod_eq_of_lt (by omega)
    have h3 : (a * 10 + digitVal d) % 2 ^ 32 = a * 10 + digitVal d := Nat.mod_eq_of_lt (by omega)
    have h4 : ¬ a * 10 + digitVal d < a * 10 := by omega
    simp only [parsePortLoop, h.1, if_true, h1, if_false, h2, h3, h4]
    exact ih _ h.2 hb

theorem parsePort_natDigits (n : Nat) (h : n < 2 ^ 30) : parsePort (natDigits n) = some (n : Int) := by
  obtain ⟨h1, h2, h3, _⟩ := natDigits_spec n
  have hm : (natDigits n).head? ≠ some '-' := head_ne_of_all_digits _ h2 _ (by decide)
  have hp : (natDigits n).head? ≠ some '+' := head_ne_of_all_digits _ h2 _ (by decide)
  have hl := parsePortLoop_small (natDigits n) 0 h2 (by
    have : valOf (natDigits n) = n := h3
    unfold valOf at this
    rw [this]; exact h)
  have hv : (natDigits n).foldl (fun acc c => acc * 10 + digitVal c) 0 = n := h3
  rw [hv] at hl
  have h5 : ¬ 2 ^ 30 ≤ n := by omega
  simp only [parsePort, h1, if_false, hm, hp, or_self, hl, false_and, and_false, not_false_eq_true,
    true_and, h5]

theorem takeWhile_append_stop (p : Char → Bool) (a b : Str) (x : Char)
    (ha : ∀ y ∈ a, p y = true) (hx : p x = false) : (a ++ x :: b).takeWhile p = a := by
  induction a with
  | nil => simp [List.takeWhile, hx]
  | cons y ys ih =>
    have hy := ha y (by simp)
    simp only [List.cons_append, List.takeWhile_cons, hy, if_true]
    rw [ih (fun z hz => ha z (by simp [hz]))]

/-- The text printed as `host:port` splits back into its two parts when the
host holds no colon and no bracket and the port holds no colon. -/
theorem SplitHostPort_plain (host port : Str) (h1 : ':' ∉ host) (h2 : '[' ∉ host)
    (h3 : ']' ∉ host) (p1 : ':' ∉ port) (p2 : '[' ∉ port) (p3 : ']' ∉ port) :
    SplitHostPort (host ++ ':' :: port) = .ok (host, port) := by
  have hrev : (host ++ ':' :: port).reverse = port.reverse ++ ':' :: host.reverse := by simp
  have htw : ((host ++ ':' :: port).reverse.takeWhile (fun c => c ≠ ':')).reverse = port := by
    rw [hrev, takeWhile_append_stop _ _ _ _ (fun y hy => by
      have : y ≠ ':' := fun e => p1 (by rw [← e]; simpa using hy)
      simpa using this) (by simp)]
    simp
  have hmem : ':' ∈ host ++ ':' :: port := by simp
  have hhead : (host ++ ':' :: port).head? ≠ some '[' := by
    cases host with
    | nil => simp
    | cons x xs =>
      simp only [List.cons_append, List.head?_cons, ne_eq, Option.some.injEq]
      intro e
      exact h2 (by simp [e])
  have hlen : (host ++ ':' :: port).length - port.length - 1 = host.length := by
    simp only [List.length_append, List.length_cons]; omega
  have hb1 : '[' ∉ host ++ ':' :: port := by
    simp only [List.mem_append, List.mem_cons, not_or]
    exact ⟨h2, by decide, p2⟩
  have hb2 : ']' ∉ host ++ ':' :: port := by
    simp only [List.mem_append, List.mem_cons, not_or]
    exact ⟨h3, by decide, p3⟩
  unfold SplitHostPort
  simp only [htw, hlen, hmem, not_true_eq_false, if_false, hhead, List.take_left, h1, hb1, hb2]

theorem parseIPv4Field_natDigits (n : Nat) (h : n < 256) : parseIPv4Field (natDigits n) = some n := by
  obtain ⟨h1, h2, h3, h4⟩ := natDigits_spec n
  have h5 : ¬ (1 < (natDigits n).length ∧ (natDigits n).head? = some '0') := fun ⟨a, b⟩ => h4 a b
  have h6 : ¬ 255 < n := by omega
  simp only [parseIPv4Field, h1, if_false, h2, not_true_eq_false, h5, h3, h6]

theorem dot_not_mem_natDigits (n : Nat) (c : Char) (hc : isDigit c = false) : c ∉ natDigits n :=
  not_mem_of_all_digits _ (natDigits_spec n).2.1 c hc

theorem parseIPv4_dotted (a b c d : Nat) (ha : a < 256) (hb : b < 256) (hc : c < 256) (hd : d < 256) :
    parseIPv4 (natDigits a ++ '.' :: (natDigits b ++ '.' :: (natDigits c ++ '.' :: natDigits d)))
      = some [a, b, c, d] := by
  have hs : Split '.' (natDigits a ++ '.' :: (natDigits b ++ '.' :: (natDigits c ++ '.' :: natDigits d)))
      = [natDigits a, natDigits b, natDigits c, natDigits d] := by
    rw [Split_append_sep _ _ _ (dot_not_mem_natDigits a _ (by decide)),
      Split_append_sep _ _ _ (dot_not_mem_natDigits b _ (by decide)),
      Split_append_sep _ _ _ (dot_not_mem_natDigits c _ (by decide)),
      Split_of_not_mem _ _ (dot_not_mem_natDigits d _ (by decide))]
  simp only [parseIPv4, hs, parseIPv4Field_natDigits a ha, parseIPv4Field_natDigits b hb,
    parseIPv4Field_natDigits c hc, parseIPv4Field_natDigits d hd]

theorem wrapInt64_small (x : Int) (h0 : 0 ≤ x) (h1 : x < 2 ^ 63) : wrapInt64 x = x := by
  unfold wrapInt64
  rw [Int.emod_eq_of_lt (by omega) (by omega)]
  omega

theorem Split_portText (a b c d p1 p2 : Nat) :
    Split ',' (portText a b c d p1 p2)
      = [natDigits a, natDigits b, natDigits c, natDigits d, natDigits p1, natDigits p2] := by
  unfold portText
  rw [Split_append_sep _ _ _ (dot_not_mem_natDigits a _ (by decide)),
    Split_append_sep _ _ _ (dot_not_mem_natDigits b _ (by decide)),
    Split_append_sep _ _ _ (dot_not_mem_natDigits c _ (by decide)),
    Split_append_sep _ _ _ (dot_not_mem_natDigits d _ (by decide)),
    Split_append_sep _ _ _ (dot_not_mem_natDigits p1 _ (by decide)),
    Split_of_not_mem _ _ (dot_not_mem_natDigits p2 _ (by decide))]

/-- Parsing the wire text of an IPv4 address and a port below 65536. -/
theorem parseRemoteAddr_portText (lookupHost : Str → Option (List Nat)) (a b c d p1 p2 : Nat)
    (ha : a < 256) (hb : b < 256) (hc : c < 256) (hd : d < 256) (hp : p1 * 256 + p2 < 65536) :
    parseRemoteAddr lookupHost (portText a b c d p1 p2) = .ok ⟨[a, b, c, d], p1 * 256 + p2⟩ := by
  have hp1 : p1 < 2 ^ 63 := by omega
  have hp2 : p2 < 2 ^ 63 := by omega
  have hw1 : wrapInt64 ((p1 : Int) * 2 ^ 8) = (p1 : Int) * 256 := by
    have e : (p1 : Int) * 2 ^ 8 = (p1 : Int) * 256 := by norm_num
    rw [e]
    exact wrapInt64_small ((p1 : Int) * 256) (by omega) (by omega)
  have hw2 : wrapInt64 ((p1 : Int) * 256 + (p2 : Int)) = ((p1 * 256 + p2 : Nat) : Int) := by
    rw [wrapInt64_small ((p1 : Int) * 256 + (p2 : Int)) (by omega) (by omega)]
    push_cast
    rfl
  have hit : itoa ((p1 * 256 + p2 : Nat) : Int) = natDigits (p1 * 256 + p2) := by
    have : ¬ (((p1 * 256 + p2 : Nat) : Int) < 0) := by omega
    simp only [itoa, this, if_false, Int.toNat_ofNat]
  have hhost : ∀ c0 : Char, isDigit c0 = false → c0 ≠ '.' →
      c0 ∉ natDigits a ++ '.' :: (natDigits b ++ '.' :: (natDigits c ++ '.' :: natDigits d)) := by
    intro c0 h0 hne
    simp only [List.mem_append, List.mem_cons, not_or]
    exact ⟨dot_not_mem_natDigits a c0 h0, hne, dot_not_mem_natDigits b c0 h0, hne,
      dot_not_mem_natDigits c c0 h0, hne, dot_not_mem_natDigits d c0 h0⟩
  have hsplit := SplitHostPort_plain
    (natDigits a ++ '.' :: (natDigits b ++ '.' :: (natDigits c ++ '.' :: natDigits d)))
    (natDigits (p1 * 256 + p2))
    (hhost _ (by decide) (by decide)) (hhost _ (by decide) (by decide))
    (hhost _ (by decide) (by decide))
    (dot_not_mem_natDigits _ _ (by decide)) (dot_not_mem_natDigits _ _ (by decide))
    (dot_not_mem_natDigits _ _ (by decide))
  have hport := parsePort_natDigits (p1 * 256 + p2) (by omega)
  have hne : natDigits a ++ '.' :: (natDigits b ++ '.' :: (natDigits c ++ '.' :: natDigits d)) ≠ [] := by
    simp
  have hrange : ¬ (((p1 * 256 + p2 : Nat) : Int) < 0 ∨ (65535 : Int) < ((p1 * 256 + p2 : Nat) : Int)) := by
    omega
  unfold parseRemoteAddr
  simp only [Split_portText, List.length_cons, List.length_nil, ne_eq, not_true_eq_false, if_false,
    List.getD_cons_succ, List.getD_cons_zero, Atoi_natDigits p1 hp1, Atoi_natDigits p2 hp2,
    hw1, hw2, hit, List.take, Join, ResolveTCPAddr, hsplit, hport, hrange, hne,
    parseIPv4_dotted a b c d ha hb hc hd, Int.toNat_ofNat]

theorem isDecimal_iff (f : Str) : isDecimal f = true ↔ f ≠ [] ∧ f.all isDigit = true := by
  simp [isDecimal]

theorem parseIPv4Field_octet (f : Str) (h : isOctet f = true) (hz : noLeadingZero f = true) :
    parseIPv4Field f = some (valOf f) := by
  simp only [isOctet, Bool.and_eq_true, decide_eq_true_eq] at h
  obtain ⟨hd, hv⟩ := h
  obtain ⟨h1, h2⟩ := (isDecimal_iff f).mp hd
  have h3 : ¬ (1 < f.length ∧ f.head? = some '0') := by
    intro hc
    simp [noLeadingZero, hc.1, hc.2] at hz
  have h4 : ¬ 255 < valOf f := by omega
  simp only [parseIPv4Field, h1, if_false, h2, not_true_eq_false, h3, h4]

/-- Parsing six fields of digits: four address fields that are IPv4 fields and
two port fields of value at most 255. -/
theorem parseRemoteAddr_fields (lookupHost : Str → Option (List Nat)) (f0 f1 f2 f3 f4 f5 : Str)
    (h0 : isOctet f0 = true) (h1 : isOctet f1 = true) (h2 : isOctet f2 = true)
    (h3 : isOctet f3 = true) (h4 : isOctet f4 = true) (h5 : isOctet f5 = true)
    (z0 : noLeadingZero f0 = true) (z1 : noLeadingZero f1 = true) (z2 : noLeadingZero f2 = true)
    (z3 : noLeadingZero f3 = true) :
    parseRemoteAddr lookupHost (fieldsText f0 f1 f2 f3 f4 f5)
      = .ok ⟨[valOf f0, valOf f1, valOf f2, valOf f3], valOf f4 * 256 + valOf f5⟩ := by
  have dec : ∀ f : Str, isOctet f = true → f ≠ [] ∧ f.all isDigit = true ∧ valOf f ≤ 255 := by
    intro f h
    simp only [isOctet, Bool.and_eq_true, decide_eq_true_eq] at h
    exact ⟨((isDecimal_iff f).mp h.1).1, ((isDecimal_iff f).mp h.1).2, h.2⟩
  obtain ⟨n0, d0, _⟩ := dec f0 h0
  obtain ⟨n1, d1, _⟩ := dec f1 h1
  obtain ⟨n2, d2, _⟩ := dec f2 h2
  obtain ⟨n3, d3, _⟩ := dec f3 h3
  obtain ⟨n4, d4, v4⟩ := dec f4 h4
  obtain ⟨n5, d5, v5⟩ := dec f5 h5
  have hsplit6 : Split ',' (fieldsText f0 f1 f2 f3 f4 f5) = [f0, f1, f2, f3, f4, f5] := by
    unfold fieldsText
    rw [Split_append_sep _ _ _ (not_mem_of_all_digits f0 d0 _ (by decide)),
      Split_append_sep _ _ _ (not_mem_of_all_digits f1 d1 _ (by decide)),
      Split_append_sep _ _ _ (not_mem_of_all_digits f2 d2 _ (by decide)),
      Split_append_sep _ _ _ (not_mem_of_all_digits f3 d3 _ (by decide)),
      Split_append_sep _ _ _ (not_mem_of_all_digits f4 d4 _ (by decide)),
      Split_of_not_mem _ _ (not_mem_of_all_digits f5 d5 _ (by decide))]
  have hw1 : wrapInt64 ((valOf f4 : Int) * 2 ^ 8) = (valOf f4 : Int) * 256 := by
    have e : (valOf f4 : Int) * 2 ^ 8 = (valOf f4 : Int) * 256 := by norm_num
    rw [e]
    exact wrapInt64_small ((valOf f4 : Int) * 256) (by omega) (by omega)
  have hw2 : wrapInt64 ((valOf f4 : Int) * 256 + (valOf f5 : Int))
      = ((valOf f4 * 256 + valOf f5 : Nat) : Int) := by
    rw [wrapInt64_small ((valOf f4 : Int) * 256 + (valOf f5 : Int)) (by omega) (by omega)]
    push_cast
    rfl
  have hit : itoa ((valOf f4 * 256 + valOf f5 : Nat) : Int) = natDigits (valOf f4 * 256 + valOf f5) := by
    have : ¬ (((valOf f4 * 256 + valOf f5 : Nat) : Int) < 0) := by omega
    simp only [itoa, this, if_false, Int.toNat_ofNat]
  have hhost : ∀ c0 : Char, isDigit c0 = false → c0 ≠ '.' →
      c0 ∉ f0 ++ '.' :: (f1 ++ '.' :: (f2 ++ '.' :: f3)) := by
    intro c0 hc hne
    simp only [List.mem_append, List.mem_cons, not_or]
    exact ⟨not_mem_of_all_digits f0 d0 c0 hc, hne, not_mem_of_all_digits f1 d1 c0 hc, hne,
      not_mem_of_all_digits f2 d2 c0 hc, hne, not_mem_of_all_digits f3 d3 c0 hc⟩
  have hshp := SplitHostPort_plain (f0 ++ '.' :: (f1 ++ '.' :: (f2 ++ '.' :: f3)))
    (natDigits (valOf f4 * 256 + valOf f5))
    (hhost _ (by decide) (by decide)) (hhost _ (by decide) (by decide))
    (hhost _ (by decide) (by decide))
    (dot_not_mem_natDigits _ _ (by decide)) (dot_not_mem_natDigits _ _ (by decide))
    (dot_not_mem_natDigits _ _ (by decide))
  have hport := parsePort_natDigits (valOf f4 * 256 + valOf f5) (by omega)
  have hne : f0 ++ '.' :: (f1 ++ '.' :: (f2 ++ '.' :: f3)) ≠ [] := by simp
  have hrange : ¬ (((valOf f4 * 256 + valOf f5 : Nat) : Int) < 0 ∨
      (65535 : Int) < ((valOf f4 * 256 + valOf f5 : Nat) : Int)) := by omega
  have hs4 : Split '.' (f0 ++ '.' :: (f1 ++ '.' :: (f2 ++ '.' :: f3))) = [f0, f1, f2, f3] := by
    rw [Split_append_sep _ _ _ (not_mem_of_all_digits f0 d0 _ (by decide)),
      Split_append_sep _ _ _ (not_mem_of_all_digits f1 d1 _ (by decide)),
      Split_append_sep _ _ _ (not_mem_of_all_digits f2 d2 _ (by decide)),
      Split_of_not_mem _ _ (not_mem_of_all_digits f3 d3 _ (by decide))]
  have hip : parseIPv4 (f0 ++ '.' :: (f1 ++ '.' :: (f2 ++ '.' :: f3)))
      = some [valOf f0, valOf f1, valOf f2, valOf f3] := by
    simp only [parseIPv4, hs4, parseIPv4Field_octet f0 h0 z0, parseIPv4Field_octet f1 h1 z1,
      parseIPv4Field_octet f2 h2 z2, parseIPv4Field_octet f3 h3 z3]
  unfold parseRemoteAddr
  simp only [hsplit6, List.length_cons, List.length_nil, ne_eq, not_true_eq_false, if_false,
    List.getD_cons_succ, List.getD_cons_zero, Atoi_digits f4 n4 d4 (by omega),
    Atoi_digits f5 n5 d5 (by omega), hw1, hw2, hit, List.take, Join, ResolveTCPAddr, hshp, hport,
    hrange, hne, hip, Int.toNat_ofNat]

/-- C1, as the claim states it, fails: the six fields of "01,2,3,4,0,21" are
decimal integers in 0..255, and parseRemoteAddr returns an error on it,
because 01.2.3.4, with a zero in front of a digit, is not an IPv4 literal and
is taken for a host name to resolve. -/
theorem parseRemoteAddr_leading_zero_counterexample :
    Split ',' "01,2,3,4,0,21".toList
      = ["01".toList, "2".toList, "3".toList, "4".toList, "0".toList, "21".toList] ∧
    (∀ f ∈ Split ',' "01,2,3,4,0,21".toList, isOctet f = true) ∧
    valOf "01".toList = 1 ∧
    parseRemoteAddr noLookup "01,2,3,4,0,21".toList = .error "no such host".toList := by
  decide

/-- C1, amended: for every PORT parameter "a,b,c,d,p1,p2" where a, b, c, d, p1
and p2 are decimal numbers in 0..255 and a, b, c, d have no zero in front of
another digit, parseRemoteAddr succeeds and returns the IPv4 address a.b.c.d
with port p1*256 + p2, whatever the resolver; in particular
"192,168,1,5,200,25" parses to 192.168.1.5:51225. -/
theorem parseRemoteAddr_octets (lookupHost : Str → Option (List Nat)) (f0 f1 f2 f3 f4 f5 : Str)
    (h0 : isOctet f0 = true) (h1 : isOctet f1 = true) (h2 : isOctet f2 = true)
    (h3 : isOctet f3 = true) (h4 : isOctet f4 = true) (h5 : isOctet f5 = true)
    (z0 : noLeadingZero f0 = true) (z1 : noLeadingZero f1 = true) (z2 : noLeadingZero f2 = true)
    (z3 : noLeadingZero f3 = true) :
    parseRemoteAddr lookupHost (fieldsText f0 f1 f2 f3 f4 f5)
      = .ok ⟨[valOf f0, valOf f1, valOf f2, valOf f3], valOf f4 * 256 + valOf f5⟩ ∧
    parseRemoteAddr lookupHost "192,168,1,5,200,25".toList = .ok ⟨[192, 168, 1, 5], 51225⟩ := by
  refine ⟨parseRemoteAddr_fields lookupHost f0 f1 f2 f3 f4 f5 h0 h1 h2 h3 h4 h5 z0 z1 z2 z3, ?_⟩
  have h := parseRemoteAddr_fields lookupHost "192".toList "168".toList "1".toList "5".toList
    "200".toList "25".toList (by decide) (by decide) (by decide) (by decide) (by decide)
    (by decide) (by decide) (by decide) (by decide) (by decide)
  have ht : fieldsText "192".toList "168".toList "1".toList "5".toList "200".toList "25".toList
      = "192,168,1,5,200,25".toList := by decide
  have hv : (⟨[valOf "192".toList, valOf "168".toList, valOf "1".toList, valOf "5".toList],
      valOf "200".toList * 256 + valOf "25".toList⟩ : TCPAddr) = ⟨[192, 168, 1, 5], 51225⟩ := by
    decide
  rw [ht, hv] at h
  exact h

theorem parseRemoteAddr_octets_witness :
    parseRemoteAddr noLookup
        (fieldsText "10".toList "0".toList "0".toList "7".toList "004".toList "1".toList)
      = .ok ⟨[valOf "10".toList, valOf "0".toList, valOf "0".toList, valOf "7".toList],
          valOf "004".toList * 256 + valOf "1".toList⟩ ∧
    parseRemoteAddr noLookup "192,168,1,5,200,25".toList = .ok ⟨[192, 168, 1, 5], 51225⟩ :=
  parseRemoteAddr_octets noLookup "10".toList "0".toList "0".toList "7".toList "004".toList
    "1".toList (by decide) (by decide) (by decide) (by decide) (by decide) (by decide)
    (by decide) (by decide) (by decide) (by decide)

theorem portArgument_ipv4 (a b c d lport port : Nat) :
    portArgument (TCPAddr.String ⟨[a, b, c, d], lport⟩) port
      = some (portText a b c d (port / 256) (port - port / 256 * 256)) := by
  have hhost : ':' ∉ natDigits a ++ '.' :: (natDigits b ++ '.' :: (natDigits c ++ '.' :: natDigits d)) := by
    simp only [List.mem_append, List.mem_cons, not_or]
    exact ⟨dot_not_mem_natDigits a _ (by decide), by decide, dot_not_mem_natDigits b _ (by decide),
      by decide, dot_not_mem_natDigits c _ (by decide), by decide,
      dot_not_mem_natDigits d _ (by decide)⟩
  have hs : Split '.' (natDigits a ++ '.' :: (natDigits b ++ '.' :: (natDigits c ++ '.' :: natDigits d)))
      = [natDigits a, natDigits b, natDigits c, natDigits d] := by
    rw [Split_append_sep _ _ _ (dot_not_mem_natDigits a _ (by decide)),
      Split_append_sep _ _ _ (dot_not_mem_natDigits b _ (by decide)),
      Split_append_sep _ _ _ (dot_not_mem_natDigits c _ (by decide)),
      Split_of_not_mem _ _ (dot_not_mem_natDigits d _ (by decide))]
  have e : portArgument (TCPAddr.String ⟨[a, b, c, d], lport⟩) port
      = some (natDigits a ++ ',' :: natDigits b ++ ',' :: natDigits c ++ ',' :: natDigits d ++ ',' ::
          natDigits (port / 256) ++ ',' :: natDigits (port - port / 256 * 256)) := by
    simp only [portArgument, TCPAddr.String, List.map, Join, Split_append_sep _ _ _ hhost,
      List.headD_cons, hs]
  rw [e]
  simp only [portText, List.append_assoc, List.cons_append]

/-- C2: address codec round trip. For every IPv4 address a.b.c.d and port in
0..65535 the two port bytes computed by handlePORT are in 0..255, the text
handlePORT renders is "a,b,c,d,p1,p2", parseRemoteAddr reads it back as
a.b.c.d with the same port, and rendering what was parsed gives the same text. -/
theorem codec_round_trip (lookupHost : Str → Option (List Nat)) (a b c d port lport lport2 : Nat)
    (ha : a < 256) (hb : b < 256) (hc : c < 256) (hd : d < 256) (hp : port < 65536) :
    port / 256 < 256 ∧ port - port / 256 * 256 < 256 ∧
    portArgument (TCPAddr.String ⟨[a, b, c, d], lport⟩) port
      = some (portText a b c d (port / 256) (port - port / 256 * 256)) ∧
    parseRemoteAddr lookupHost (portText a b c d (port / 256) (port - port / 256 * 256))
      = .ok ⟨[a, b, c, d], port⟩ ∧
    (∀ r, parseRemoteAddr lookupHost (portText a b c d (port / 256) (port - port / 256 * 256)) = .ok r →
      portArgument (TCPAddr.String ⟨r.IP, lport2⟩) r.Port
        = portArgument (TCPAddr.String ⟨[a, b, c, d], lport⟩) port) := by
  have h1 : port / 256 < 256 := by omega
  have h2 : port - port / 256 * 256 < 256 := by omega
  have h3 := parseRemoteAddr_portText lookupHost a b c d (port / 256) (port - port / 256 * 256)
    ha hb hc hd (by omega)
  have h4 : port / 256 * 256 + (port - port / 256 * 256) = port := by omega
  rw [h4] at h3
  refine ⟨h1, h2, portArgument_ipv4 a b c d lport port, h3, ?_⟩
  intro r hr
  rw [h3] at hr
  injection hr with hr
  subst hr
  rw [portArgument_ipv4, portArgument_ipv4]

theorem codec_round_trip_witness :
    51225 / 256 < 256 ∧ 51225 - 51225 / 256 * 256 < 256 ∧
    portArgument (TCPAddr.String ⟨[192, 168, 1, 5], 21⟩) 51225
      = some (portText 192 168 1 5 (51225 / 256) (51225 - 51225 / 256 * 256)) ∧
    parseRemoteAddr noLookup (portText 192 168 1 5 (51225 / 256) (51225 - 51225 / 256 * 256))
      = .ok ⟨[192, 168, 1, 5], 51225⟩ ∧
    (∀ r, parseRemoteAddr noLookup (portText 192 168 1 5 (51225 / 256) (51225 - 51225 / 256 * 256))
        = .ok r →
      portArgument (TCPAddr.String ⟨r.IP, 2121⟩) r.Port
        = portArgument (TCPAddr.String ⟨[192, 168, 1, 5], 21⟩) 51225) :=
  codec_round_trip noLookup 192 168 1 5 51225 21 2121 (by decide) (by decide) (by decide)
    (by decide) (by decide)

theorem Atoi_error_of_not_decimal (f : Str) (h : isSignedDecimal f = false) :
    ∃ e, Atoi f = .error e := by
  unfold isSignedDecimal isDecimal at h
  unfold Atoi
  by_cases hb : (if f.head? = some '-' ∨ f.head? = some '+' then f.tail else f) = []
  · exact ⟨"invalid syntax".toList, by simp only [hb, if_true]⟩
  · have ha : (if f.head? = some '-' ∨ f.head? = some '+' then f.tail else f).all isDigit = false := by
      simpa [hb] using h
    exact ⟨"invalid syntax".toList, by simp only [hb, if_false, ha, Bool.false_eq_true]⟩

theorem Atoi_ok_decimal (f : Str) (v : Int) (h : Atoi f = .ok v) : isSignedDecimal f = true := by
  by_contra hc
  obtain ⟨e, he⟩ := Atoi_error_of_not_decimal f (by simpa using hc)
  rw [he] at h
  cases h

theorem Split_length (sep : Char) (s : Str) : (Split sep s).length = s.count sep + 1 := by
  induction s with
  | nil => simp [Split]
  | cons c cs ih =>
    unfold Split
    by_cases hc : c = sep
    · subst hc
      simp [ih]
    · have hne : Split sep cs ≠ [] := Split_ne_nil sep cs
      have hcount : (c :: cs).count sep = cs.count sep := by
        rw [List.count_cons]
        simp [hc]
      rw [if_neg hc, hcount, ← ih]
      cases hsp : Split sep cs with
      | nil => exact absurd hsp hne
      | cons f fs => simp

theorem not_mem_of_count_eq_zero (sep : Char) (s : Str) (h : s.count sep = 0) : sep ∉ s := by
  intro hm
  have := List.count_pos_iff.mpr hm
  omega

theorem parseIPv4Field_some (f : Str) (v : Nat) (h : parseIPv4Field f = some v) :
    isDecimal f = true ∧ valOf f = v ∧ v ≤ 255 := by
  unfold parseIPv4Field at h
  split at h
  · cases h
  · split at h
    · cases h
    · split at h
      · cases h
      · split at h
        · cases h
        · rename_i h1 h2 _ h4
          injection h with h
          refine ⟨?_, h, by omega⟩
          simp only [isDecimal, ne_eq, h1, not_false_eq_true, decide_True, Bool.true_and]
          simpa using h2

/-- An IPv4 literal spelt by four fields joined with dots: each field is a
decimal number of at most 255. -/
theorem parseIPv4_joined (f0 f1 f2 f3 : Str) (ip : List Nat)
    (h : parseIPv4 (f0 ++ '.' :: (f1 ++ '.' :: (f2 ++ '.' :: f3))) = some ip) :
    ∃ a b c d, ip = [a, b, c, d] ∧ parseIPv4Field f0 = some a ∧ parseIPv4Field f1 = some b ∧
      parseIPv4Field f2 = some c ∧ parseIPv4Field f3 = some d := by
  have hlen : (Split '.' (f0 ++ '.' :: (f1 ++ '.' :: (f2 ++ '.' :: f3)))).length = 4 := by
    unfold parseIPv4 at h
    split at h
    · rename_i heq
      rw [heq]; rfl
    · cases h
  rw [Split_length] at hlen
  simp only [List.count_append, List.count_cons_self] at hlen
  have c0 : '.' ∉ f0 := not_mem_of_count_eq_zero _ _ (by omega)
  have c1 : '.' ∉ f1 := not_mem_of_count_eq_zero _ _ (by omega)
  have c2 : '.' ∉ f2 := not_mem_of_count_eq_zero _ _ (by omega)
  have c3 : '.' ∉ f3 := not_mem_of_count_eq_zero _ _ (by omega)
  have hs : Split '.' (f0 ++ '.' :: (f1 ++ '.' :: (f2 ++ '.' :: f3))) = [f0, f1, f2, f3] := by
    rw [Split_append_sep _ _ _ c0, Split_append_sep _ _ _ c1, Split_append_sep _ _ _ c2,
      Split_of_not_mem _ _ c3]
  unfold parseIPv4 at h
  rw [hs] at h
  simp only at h
  cases h0 : parseIPv4Field f0 with
  | none => simp [h0] at h
  | some a =>
    cases h1 : parseIPv4Field f1 with
    | none => simp [h0, h1] at h
    | some b =>
      cases h2 : parseIPv4Field f2 with
      | none => simp [h0, h1, h2] at h
      | some c =>
        cases h3 : parseIPv4Field f3 with
        | none => simp [h0, h1, h2, h3] at h
        | some d =>
          simp only [h0, h1, h2, h3, Option.some.injEq] at h
          exact ⟨a, b, c, d, h.symm, rfl, rfl, rfl, rfl⟩

theorem length_six {α : Type} (l : List α) (h : l.length = 6) :
    ∃ a b c d e f, l = [a, b, c, d, e, f] := by
  match l, h with
  | [a, b, c, d, e, f], _ => exact ⟨a, b, c, d, e, f, rfl⟩

theorem colon_not_mem_itoa (v : Int) (c : Char) (hc : isDigit c = false) (hm : c ≠ '-') :
    c ∉ itoa v := by
  unfold itoa
  split
  · simp only [List.mem_cons, not_or]
    exact ⟨hm, dot_not_mem_natDigits _ c hc⟩
  · exact dot_not_mem_natDigits _ c hc

/-- What SplitHostPort can return on a text printed as `ip:port`. -/
theorem SplitHostPort_printed (ip port : Str) (hp : ':' ∉ port) (h p : Str)
    (hs : SplitHostPort (ip ++ ':' :: port) = .ok (h, p)) :
    p = port ∧ ((ip ++ ':' :: port).head? ≠ some '[' → h = ip) := by
  have hrev : (ip ++ ':' :: port).reverse = port.reverse ++ ':' :: ip.reverse := by simp
  have htw : ((ip ++ ':' :: port).reverse.takeWhile (fun c => c ≠ ':')).reverse = port := by
    rw [hrev, takeWhile_append_stop _ _ _ _ (fun y hy => by
      have : y ≠ ':' := fun e => hp (by rw [← e]; simpa using hy)
      simpa using this) (by simp)]
    simp
  have hmem : ':' ∈ ip ++ ':' :: port := by simp
  have hlen : (ip ++ ':' :: port).length - port.length - 1 = ip.length := by
    simp only [List.length_append, List.length_cons]; omega
  unfold SplitHostPort at hs
  simp only [htw, hlen, hmem, not_true_eq_false, if_false, List.take_left] at hs
  by_cases hb : (ip ++ ':' :: port).head? = some '['
  · simp only [hb, if_true] at hs
    refine ⟨?_, fun hn => absurd hb hn⟩
    split at hs
    · cases hs
    · split at hs
      · cases hs
      · split at hs
        · split at hs
          · cases hs
          · split at hs
            · cases hs
            · injection hs with hs
              injection hs with _ hs
              exact hs.symm
        · split at hs <;> cases hs
  · simp only [hb, if_false] at hs
    split at hs
    · cases hs
    · split at hs
      · cases hs
      · split at hs
        · cases hs
        · injection hs with hs
          injection hs with h1 h2
          exact ⟨h2.symm, fun _ => h1.symm⟩

theorem ResolveTCPAddr_port (lookupHost : Str → Option (List Nat)) (addr : Str) (r : TCPAddr)
    (h : ResolveTCPAddr lookupHost addr = .ok r) : r.Port ≤ 65535 := by
  unfold ResolveTCPAddr at h
  split at h
  · cases h
  · split at h
    · cases h
    · rename_i portnum _
      split at h
      · cases h
      · rename_i hr
        have hb : portnum.toNat ≤ 65535 := by omega
        split at h
        · injection h with h; rw [← h]; exact hb
        · split at h
          · injection h with h; rw [← h]; exact hb
          · split at h
            · injection h with h; rw [← h]; exact hb
            · cases h

/-- A text printed as `ip:port`, with an unbracketed non-empty host that the
resolver does not know, resolves only if the host is an IPv4 literal. -/
theorem ResolveTCPAddr_literal (lookupHost : Str → Option (List Nat)) (ip port : Str)
    (hp : ':' ∉ port) (hb : ip.head? ≠ some '[') (hne : ip ≠ []) (hl : lookupHost ip = none)
    (r : TCPAddr) (h : ResolveTCPAddr lookupHost (ip ++ ':' :: port) = .ok r) :
    parseIPv4 ip = some r.IP := by
  have hhead : (ip ++ ':' :: port).head? ≠ some '[' := by
    cases ip with
    | nil => exact absurd rfl hne
    | cons x xs => simpa using hb
  unfold ResolveTCPAddr at h
  split at h
  · cases h
  · rename_i host p hs
    have hhost : host = ip := (SplitHostPort_printed ip port hp host p hs).2 hhead
    subst hhost
    split at h
    · cases h
    · split at h
      · cases h
      · split at h
        · rename_i v hv
          injection h with h
          rw [← h]; exact hv
        · rw [hl] at h
          cases h

theorem Split_head (sep : Char) (s : Str) (f : Str) (fs : List Str) (h : Split sep s = f :: fs) :
    f = [] ∨ f.head? = s.head? := by
  cases s with
  | nil =>
    simp only [Split, List.cons.injEq] at h
    exact Or.inl h.1.symm
  | cons c cs =>
    unfold Split at h
    split at h
    · simp only [List.cons.injEq] at h
      exact Or.inl h.1.symm
    · split at h
      · simp only [List.cons.injEq] at h
        right; rw [← h.1]; rfl
      · simp only [List.cons.injEq] at h
        right; rw [← h.1]; rfl

/-- What parseRemoteAddr has checked when it returns an address. -/
theorem parseRemoteAddr_ok (lookupHost : Str → Option (List Nat)) (param : Str) (r : TCPAddr)
    (h : parseRemoteAddr lookupHost param = .ok r) :
    ∃ f0 f1 f2 f3 f4 f5, Split ',' param = [f0, f1, f2, f3, f4, f5] ∧
      isSignedDecimal f4 = true ∧ isSignedDecimal f5 = true ∧ r.Port ≤ 65535 ∧
      (param.head? ≠ some '[' → lookupHost (Join '.' [f0, f1, f2, f3]) = none →
        ∀ f ∈ [f0, f1, f2, f3], isDecimal f = true ∧ valOf f ≤ 255) := by
  unfold parseRemoteAddr at h
  simp only at h
  by_cases hlen : (Split ',' param).length = 6
  · obtain ⟨f0, f1, f2, f3, f4, f5, hs⟩ := length_six _ hlen
    rw [hs] at h
    simp only [List.length_cons, List.length_nil, ne_eq, not_true_eq_false, if_false,
      List.getD_cons_succ, List.getD_cons_zero] at h
    cases h4 : Atoi f4 with
    | error e => rw [h4] at h; cases h
    | ok p1 =>
      cases h5 : Atoi f5 with
      | error e => rw [h4, h5] at h; cases h
      | ok p2 =>
        rw [h4, h5] at h
        simp only [List.take, Join] at h
        refine ⟨f0, f1, f2, f3, f4, f5, hs, Atoi_ok_decimal f4 p1 h4, Atoi_ok_decimal f5 p2 h5,
          ResolveTCPAddr_port _ _ _ h, ?_⟩
        intro hb hl
        simp only [Join] at hl
        have hhead : (f0 ++ '.' :: (f1 ++ '.' :: (f2 ++ '.' :: f3))).head? ≠ some '[' := by
          rcases Split_head _ _ _ _ hs with h0 | h0
          · rw [h0]; simp
          · cases f0 with
            | nil => simp
            | cons x xs =>
              simp only [List.cons_append, List.head?_cons]
              simp only [List.head?_cons] at h0
              rw [h0]; exact hb
        have hip := ResolveTCPAddr_literal lookupHost _ _
          (colon_not_mem_itoa _ ':' (by decide) (by decide)) hhead (by simp) hl r h
        obtain ⟨a, b, c, d, _, ha, hb2, hc, hd⟩ := parseIPv4_joined f0 f1 f2 f3 r.IP hip
        intro f hf
        simp only [List.mem_cons, List.mem_singleton, List.not_mem_nil, or_false] at hf
        rcases hf with rfl | rfl | rfl | rfl
        · have := parseIPv4Field_some _ _ ha; exact ⟨this.1, by omega⟩
        · have := parseIPv4Field_some _ _ hb2; exact ⟨this.1, by omega⟩
        · have := parseIPv4Field_some _ _ hc; exact ⟨this.1, by omega⟩
        · have := parseIPv4Field_some _ _ hd; exact ⟨this.1, by omega⟩
  · simp only [ne_eq, hlen, not_false_eq_true, if_true] at h
    cases h

/-- C4, as the claim states it, fails: parseRemoteAddr accepts "1,2,3,4,0,256",
whose sixth field is above 255, as 1.2.3.4:256, and "1,2,3,4,-1,300", whose
fifth field is negative and whose sixth is above 255, as 1.2.3.4:44. -/
theorem parseRemoteAddr_range_counterexample :
    parseRemoteAddr noLookup "1,2,3,4,0,256".toList = .ok ⟨[1, 2, 3, 4], 256⟩ ∧
    Atoi ((Split ',' "1,2,3,4,0,256".toList).getD 5 []) = .ok 256 ∧
    parseRemoteAddr noLookup "1,2,3,4,-1,300".toList = .ok ⟨[1, 2, 3, 4], 44⟩ ∧
    Atoi ((Split ',' "1,2,3,4,-1,300".toList).getD 4 []) = .ok (-1) ∧
    Atoi ((Split ',' "1,2,3,4,-1,300".toList).getD 5 []) = .ok 300 := by
  decide

/-- C4, amended: every PORT parameter that parseRemoteAddr accepts has exactly
six comma-separated fields, its fifth and sixth fields are decimal integers
(an optional sign, then digits) and the port returned lies in 0..65535; when
the parameter does not start with a bracket and the resolver does not know
the host spelt by the first four fields, each of these is a decimal number in
0..255. The two port fields are not checked against 0..255 one by one. -/
theorem parseRemoteAddr_accepted (lookupHost : Str → Option (List Nat)) (param : Str) (r : TCPAddr)
    (h : parseRemoteAddr lookupHost param = .ok r) :
    ∃ f0 f1 f2 f3 f4 f5, Split ',' param = [f0, f1, f2, f3, f4, f5] ∧
      isSignedDecimal f4 = true ∧ isSignedDecimal f5 = true ∧ r.Port ≤ 65535 ∧
      (param.head? ≠ some '[' → lookupHost (Join '.' [f0, f1, f2, f3]) = none →
        ∀ f ∈ [f0, f1, f2, f3], isDecimal f = true ∧ valOf f ≤ 255) :=
  parseRemoteAddr_ok lookupHost param r h

theorem parseRemoteAddr_accepted_witness :
    ∃ f0 f1 f2 f3 f4 f5, Split ',' "1,2,3,4,-1,300".toList = [f0, f1, f2, f3, f4, f5] ∧
      isSignedDecimal f4 = true ∧ isSignedDecimal f5 = true ∧
      (⟨[1, 2, 3, 4], 44⟩ : TCPAddr).Port ≤ 65535 ∧
      ("1,2,3,4,-1,300".toList.head? ≠ some '[' → noLookup (Join '.' [f0, f1, f2, f3]) = none →
        ∀ f ∈ [f0, f1, f2, f3], isDecimal f = true ∧ valOf f ≤ 255) :=
  parseRemoteAddr_accepted noLookup "1,2,3,4,-1,300".toList ⟨[1, 2, 3, 4], 44⟩ (by decide)

/-- When parseRemoteAddr fails, handlePORT answers with one 500 reply and
changes nothing else. -/
theorem handlePORT_of_error (lookupHost : Str → Option (List Nat)) (c : clientHandler) (err : Str)
    (h : parseRemoteAddr lookupHost c.param = .error err) :
    handlePORT lookupHost c =
      ({ c with net := { c.net with toClient := c.net.toClient ++
          ["500 Problem parsing PORT: ".toList ++ err ++ "\r\n".toList] } }, none) := by
  have h500 : itoa 500 = "500".toList := by decide
  unfold handlePORT
  rw [h]
  simp only [writeMessage, writeLine, h500]
  simp

/-- C3, as the claim states it, fails: a parameter with six fields of which
some are not decimal numbers can be accepted. "[1,2,3,4],0,21" is read as the
bracketed host [1.2.3.4] and accepted whatever the resolver; with a resolver
that knows www.example.com., "www,example,com,,0,21" is accepted. handlePORT
then goes on to open a listener instead of answering 500. -/
theorem handlePORT_nondecimal_counterexample :
    isDecimal ((Split ',' "[1,2,3,4],0,21".toList).getD 0 []) = false ∧
    parseRemoteAddr noLookup "[1,2,3,4],0,21".toList = .ok ⟨[1, 2, 3, 4], 21⟩ ∧
    isDecimal ((Split ',' "www,example,com,,0,21".toList).getD 0 []) = false ∧
    parseRemoteAddr exampleLookup "www,example,com,,0,21".toList = .ok ⟨[93, 184, 216, 34], 21⟩ ∧
    (handlePORT noLookup sessionBracket).1.net.toClient
      = ["200 PORT command successful\r\n".toList] ∧
    (handlePORT noLookup sessionBracket).1.net.toOrigin
      = ["PORT 10,0,0,7,156,64\r\n".toList] := by
  decide

/-- C3, amended: for every PORT parameter that does not consist of exactly six
comma-separated fields, or whose fifth or sixth field is not a decimal integer
(an optional sign, then digits), or that does not start with a bracket and has
among its first four fields one that is not a decimal number while the
resolver does not know the host they spell, parseRemoteAddr returns an error
and handlePORT writes exactly one reply, with code 500, to the client, sends
nothing to the origin and leaves every session field, the transfer handler
included, unchanged. -/
theorem handlePORT_malformed (lookupHost : Str → Option (List Nat)) (c : clientHandler)
    (h : (Split ',' c.param).length ≠ 6 ∨
      isSignedDecimal ((Split ',' c.param).getD 4 []) = false ∨
      isSignedDecimal ((Split ',' c.param).getD 5 []) = false ∨
      (c.param.head? ≠ some '[' ∧ lookupHost (Join '.' ((Split ',' c.param).take 4)) = none ∧
        ∃ f ∈ (Split ',' c.param).take 4, isDecimal f = false)) :
    ∃ err, parseRemoteAddr lookupHost c.param = .error err ∧
      handlePORT lookupHost c =
        ({ c with net := { c.net with toClient := c.net.toClient ++
            ["500 Problem parsing PORT: ".toList ++ err ++ "\r\n".toList] } }, none) := by
  have key : ∃ err, parseRemoteAddr lookupHost c.param = .error err := by
    cases hr : parseRemoteAddr lookupHost c.param with
    | error e => exact ⟨e, rfl⟩
    | ok r =>
      exfalso
      obtain ⟨f0, f1, f2, f3, f4, f5, hs, h4, h5, _, hip⟩ := parseRemoteAddr_ok lookupHost c.param r hr
      rw [hs] at h
      simp only [List.length_cons, List.length_nil, ne_eq, not_true_eq_false, List.getD_cons_succ,
        List.getD_cons_zero, h4, h5, false_or, List.take, Bool.true_eq_false] at h
      obtain ⟨hb, hl, f, hf, hd⟩ := h
      have := (hip hb hl f hf).1
      rw [hd] at this
      cases this
  obtain ⟨err, he⟩ := key
  exact ⟨err, he, handlePORT_of_error lookupHost c err he⟩

theorem handlePORT_malformed_witness :
    ∃ err, parseRemoteAddr noLookup sessionFiveFields.param = .error err ∧
      handlePORT noLookup sessionFiveFields =
        ({ sessionFiveFields with net := { sessionFiveFields.net with
            toClient := sessionFiveFields.net.toClient ++
              ["500 Problem parsing PORT: ".toList ++ err ++ "\r\n".toList] } }, none) :=
  handlePORT_malformed noLookup sessionFiveFields (Or.inl (by decide))

/-- C5: the registry built by `init` has entries for USER, AUTH, EPSV, LIST
and FEAT, and none for PORT or PASV: a PORT line finds no handler, handlePORT
does not run (no reply, no transfer handler) and the raw line goes to the
origin. -/
theorem commandsMap_lacks_PORT_PASV (handlePASV : clientHandler → Run) :
    (commandsMap handlePASV "PORT".toList).isSome = false ∧
    (commandsMap handlePASV "PASV".toList).isSome = false ∧
    (commandsMap handlePASV "USER".toList).isSome = true ∧
    (commandsMap handlePASV "AUTH".toList).isSome = true ∧
    (commandsMap handlePASV "EPSV".toList).isSome = true ∧
    (commandsMap handlePASV "LIST".toList).isSome = true ∧
    (commandsMap handlePASV "FEAT".toList).isSome = true ∧
    handleCommand (commandsMap handlePASV) "PORT 192,168,1,5,200,25\r\n".toList sessionBound =
      { sessionBound with
        command := "PORT".toList
        param := "192,168,1,5,200,25".toList
        line := "PORT 192,168,1,5,200,25\r\n".toList
        net := { session0.net with toOrigin := ["PORT 192,168,1,5,200,25\r\n".toList] } } := by
  refine ⟨rfl, rfl, rfl, rfl, rfl, rfl, rfl, ?_⟩
  rfl

/-- C6: with a control relay bound, a LIST line reaches the origin twice, once
from handleLIST and once from the generic forward of handleCommand; so does a
FEAT line typed in lower case; a PASV line is forwarded by the generic step. -/
theorem handleCommand_forwards_twice :
    (handleCommand (commandsMap noPASV) "LIST\r\n".toList sessionBound).net.toOrigin
      = ["LIST\r\n".toList, "LIST\r\n".toList] ∧
    (handleCommand (commandsMap noPASV) "feat\r\n".toList sessionBound).net.toOrigin
      = ["feat\r\n".toList, "feat\r\n".toList] ∧
    (handleCommand (commandsMap noPASV) "FEAT\r\n".toList sessionBound).net.toOrigin
      = ["FEAT\r\n".toList] ∧
    (handleCommand (commandsMap noPASV) "PASV\r\n".toList sessionBound).net.toOrigin
      = ["PASV\r\n".toList] := by
  decide

/-- C10: Open accepts a connection on every call. On a handler whose first
Open built the relay, a second Open takes a second connection from the
listener before it returns that relay, and returns the error and no relay
when that second Accept fails. -/
theorem Open_accepts_again :
    activeTwoWaiting.Open sessionDial =
      (sessionBound, { activeTwoWaiting with listener := ⟨40000, [some 2], none, [1]⟩,
                                             proxyServer := some dataRelay }, .ok dataRelay) ∧
    (activeTwoWaiting.Open sessionDial).2.1.Open sessionBound =
      (sessionBound, { activeTwoWaiting with listener := ⟨40000, [], none, [1, 2]⟩,
                                             proxyServer := some dataRelay }, .ok dataRelay) ∧
    (activeOneWaiting.Open sessionDial).2.2 = .ok dataRelay ∧
    ((activeOneWaiting.Open sessionDial).2.1.Open sessionBound).2.2
      = .error "accept error".toList := by
  decide

theorem SendToClient_ok (c : clientHandler) (b : Str) (h : c.net.clientSend.all id = true) :
    SendToClient c b =
      ({ c with net := { c.net with clientSend := c.net.clientSend.drop 1,
                                    toClient := c.net.toClient ++ [b] } }, true) := by
  unfold SendToClient
  cases hs : c.net.clientSend with
  | nil =>
    simp only [List.drop_nil]
    rw [← hs]
  | cons x xs =>
    rw [hs] at h
    simp only [List.all_cons, id_eq, Bool.and_eq_true] at h
    rw [h.1]
    simp

/-- The loop of handleFEAT on lines of which the first to end the reply is
`t`: the lines before it and `t` go to the client, and nothing after `t` is
read. -/
theorem featLoop_stops (pre : List Str) (t : Str) (rest : List (Option Str)) :
    ∀ c : clientHandler, c.net.clientSend.all id = true →
      (∀ l ∈ pre, l ≠ [] ∧ isLastLine l = false) → isLastLine t = true →
      featLoop (pre.map some ++ some t :: rest) c =
        ({ c with net := { c.net with
            originIn := rest
            reads := c.net.reads + (pre.length + 1)
            clientSend := c.net.clientSend.drop (pre.length + 1)
            toClient := c.net.toClient ++ (pre ++ [t]) } }, none) := by
  induction pre with
  | nil =>
    intro c hsend _ ht
    simp only [List.map_nil, List.nil_append, featLoop, List.length_nil, Nat.zero_add]
    rw [SendToClient_ok _ _ (by simpa using hsend)]
    simp only [isLastLine, Bool.or_eq_true, decide_eq_true_eq] at ht
    by_cases h1 : HasSuffix (ToUpper t) "END".toList = true
    · simp only [h1, if_true]
    · have h5 : t.head? = some '5' := by
        rcases ht with h | h
        · exact absurd h h1
        · exact h
      cases t with
      | nil => simp at h5
      | cons b0 bs =>
        simp only [List.head?_cons, Option.some.injEq] at h5
        subst h5
        simp only [h1, Bool.false_eq_true, if_false, if_true]
  | cons l pre ih =>
    intro c hsend hpre ht
    have hl := hpre l (by simp)
    have hl2 : isLastLine l = false := hl.2
    simp only [isLastLine, Bool.or_eq_false_iff, decide_eq_false_iff_not] at hl2
    simp only [List.map_cons, List.cons_append, featLoop]
    rw [SendToClient_ok _ _ (by simpa using hsend)]
    cases hl0 : l with
    | nil => exact absurd hl0 hl.1
    | cons b0 bs =>
      have hb0 : b0 ≠ '5' := by
        intro e
        apply hl2.2
        rw [hl0, e]; rfl
      rw [hl0] at hl2
      simp only [hl2.1, Bool.false_eq_true, if_false, hb0, List.append_eq]
      rw [ih _ (by
        simp only [List.all_eq_true, id_eq] at hsend ⊢
        intro x hx
        exact hsend x (List.mem_of_mem_drop hx)) (fun l hl => hpre l (by simp [hl])) ht]
      simp only [List.length_cons, List.drop_drop, List.append_assoc, List.cons_append,
        List.nil_append, List.singleton_append, Prod.mk.injEq, and_true]
      have e1 : 1 + (pre.length + 1) = pre.length + 1 + 1 := by omega
      have e2 : c.net.reads + 1 + (pre.length + 1) = c.net.reads + (pre.length + 1 + 1) := by omega
      rw [e1, e2]

/-- C7, as the claim states it, fails twice. An empty line from the origin is
forwarded and then faults the handler at b[0], so the lines up to "211 END"
are not forwarded. A line that begins with "211 END" without ending in END
does not stop the loop: after "211 END of features" another read is made. -/
theorem handleFEAT_counterexample :
    (handleFEAT sessionFeatEmpty).2 = some indexFault ∧
    (handleFEAT sessionFeatEmpty).1.net.toClient = [[]] ∧
    (handleFEAT sessionFeatEmpty).1.net.originIn = [some "211 END".toList] ∧
    isLastLine "211 END of features".toList = false ∧
    (handleFEAT sessionFeatProse).1.net.toClient = ["211 END of features".toList] ∧
    (handleFEAT sessionFeatProse).1.net.reads = 2 := by
  decide

/-- C7, amended: when the origin returns non-empty lines without a read or
write error, handleFEAT sends the raw line to the origin once, forwards to the
client exactly the lines up to and including the first line that has 5 as its
first character or, in upper case, ends with END, reads one line per line
forwarded and leaves the rest unread, and returns without a fault. The line
"211 END" is such a line, and so is every line that begins with "530". -/
theorem handleFEAT_forwards (c : clientHandler) (p : ProxyServer) (pre : List Str) (t : Str)
    (rest : List (Option Str)) (hp : c.controlProxy = some p)
    (hin : c.net.originIn = pre.map some ++ some t :: rest)
    (hsend : c.net.clientSend.all id = true)
    (hpre : ∀ l ∈ pre, l ≠ [] ∧ isLastLine l = false) (ht : isLastLine t = true) :
    handleFEAT c =
      ({ c with net := { c.net with
          originIn := rest
          reads := c.net.reads + (pre.length + 1)
          clientSend := c.net.clientSend.drop (pre.length + 1)
          toClient := c.net.toClient ++ (pre ++ [t])
          toOrigin := c.net.toOrigin ++ [c.line] } }, none) ∧
    isLastLine "211 END".toList = true ∧
    (∀ x : Str, isLastLine ("530".toList ++ x) = true) := by
  refine ⟨?_, by decide, ?_⟩
  · unfold handleFEAT
    rw [hp]
    simp only [SendToOriginWithProxy]
    rw [hin, featLoop_stops pre t rest _ (by simpa using hsend) hpre ht]
    simp [hp]
  · intro x
    simp [isLastLine]

theorem handleFEAT_forwards_witness :
    handleFEAT sessionFeat =
      ({ sessionFeat with net := { sessionFeat.net with
          originIn := [some "220 next".toList]
          reads := sessionFeat.net.reads + (["211-Features:".toList, " UTF8".toList].length + 1)
          clientSend := sessionFeat.net.clientSend.drop
            (["211-Features:".toList, " UTF8".toList].length + 1)
          toClient := sessionFeat.net.toClient ++
            (["211-Features:".toList, " UTF8".toList] ++ ["211 END".toList])
          toOrigin := sessionFeat.net.toOrigin ++ [sessionFeat.line] } }, none) ∧
    isLastLine "211 END".toList = true ∧
    (∀ x : Str, isLastLine ("530".toList ++ x) = true) :=
  handleFEAT_forwards sessionFeat relay0 ["211-Features:".toList, " UTF8".toList] "211 END".toList
    [some "220 next".toList] (by decide) (by decide) (by decide) (by decide) (by decide)

theorem commandLoop_stop (cmds : Str → Option CommandDescription) (stop : List ReadResult)
    (h : endsReads stop = true) (c : clientHandler) : commandLoop cmds stop c = c := by
  cases stop with
  | nil => rfl
  | cons r rest =>
    unfold commandLoop
    split
    · rfl
    · cases r with
      | line l => simp [endsReads] at h
      | timeout => simp [endsReads] at h
      | netError => rfl
      | eof => rfl
      | readError => rfl

/-- C8: when the handler of a received line faults, handleCommand recovers: it
returns the session as the handler left it with exactly one more reply to the
client, "500 Internal error: ...", and sends nothing more to the origin; the
loop of HandleCommands then reads the next line and dispatches it to
handleCommand on that session, so that a session whose client sends the
faulting line, a next line and then closes ends as the session handleCommand
leaves after the next line, and HandleCommands, started on a session `s` that
is greeted into the session of the fault, returns that same session with the
counter decremented by `end`. -/
theorem handleCommand_recovers (cmds : Str → Option CommandDescription) (line next : Str)
    (stop rest : List ReadResult) (s c c1 : clientHandler) (d : CommandDescription) (r : Str)
    (hw : (WelcomeUser s).2 = false) (hc : writeMessage s 220 (WelcomeUser s).1 = c)
    (hd : cmds (ToUpper (parseLine line).1) = some d)
    (hf : d.Fn { c with command := ToUpper (parseLine line).1, param := (parseLine line).2,
                        line := line } = (c1, some r))
    (hr : c.reader = true) (hr1 : c1.reader = true) (hs : endsReads stop = true) :
    handleCommand cmds line c = writeMessage c1 500 ("Internal error: ".toList ++ r) ∧
    (handleCommand cmds line c).net.toClient
      = c1.net.toClient ++ ["500 Internal error: ".toList ++ r ++ "\r\n".toList] ∧
    (handleCommand cmds line c).net.toOrigin = c1.net.toOrigin ∧
    commandLoop cmds (.line line :: .line next :: stop) c
      = handleCommand cmds next (writeMessage c1 500 ("Internal error: ".toList ++ r)) ∧
    HandleCommands cmds (.line line :: .line next :: stop) s
      = (handleCommand cmds next (writeMessage c1 500 ("Internal error: ".toList ++ r))).end_ ∧
    commandLoop cmds (.line line :: .line next :: rest) c
      = commandLoop cmds rest
          (handleCommand cmds next (writeMessage c1 500 ("Internal error: ".toList ++ r))) := by
  have h500 : itoa 500 = "500".toList := by decide
  have h1 : handleCommand cmds line c = writeMessage c1 500 ("Internal error: ".toList ++ r) := by
    unfold handleCommand dispatch
    simp only [hd, hf]
  have h2 : (writeMessage c1 500 ("Internal error: ".toList ++ r)).reader = true := hr1
  have hloop : ∀ tail : List ReadResult, commandLoop cmds (.line line :: .line next :: tail) c
      = commandLoop cmds tail
          (handleCommand cmds next (writeMessage c1 500 ("Internal error: ".toList ++ r))) := by
    intro tail
    have h3 : (handleCommand cmds line c).reader = true := by rw [h1]; exact h2
    have e1 : commandLoop cmds (.line line :: .line next :: tail) c
        = commandLoop cmds (.line next :: tail) (handleCommand cmds line c) := by
      simp [commandLoop, hr]
    have e2 : commandLoop cmds (.line next :: tail) (handleCommand cmds line c)
        = commandLoop cmds tail (handleCommand cmds next (handleCommand cmds line c)) := by
      simp [commandLoop, h3]
    rw [e1, e2, h1]
  refine ⟨h1, ?_, ?_, ?_, ?_, hloop rest⟩
  · rw [h1]
    simp [writeMessage, writeLine, h500]
  · rw [h1]
    rfl
  · rw [hloop stop, commandLoop_stop cmds stop hs]
  · unfold HandleCommands
    cases hW : WelcomeUser s with
    | mk msg err =>
      rw [hW] at hw hc
      simp only at hw hc
      subst hw
      simp only
      rw [hc, hloop stop, commandLoop_stop cmds stop hs]

theorem handleCommand_recovers_witness :
    handleCommand (commandsMap noPASV) "LIST\r\n".toList sessionGreeted
      = writeMessage sessionList 500 ("Internal error: ".toList ++ nilFault) ∧
    (handleCommand (commandsMap noPASV) "LIST\r\n".toList sessionGreeted).net.toClient
      = sessionList.net.toClient ++ ["500 Internal error: ".toList ++ nilFault ++ "\r\n".toList] ∧
    (handleCommand (commandsMap noPASV) "LIST\r\n".toList sessionGreeted).net.toOrigin
      = sessionList.net.toOrigin ∧
    commandLoop (commandsMap noPASV)
        (.line "LIST\r\n".toList :: .line "NOOP\r\n".toList :: [.eof]) sessionGreeted
      = handleCommand (commandsMap noPASV) "NOOP\r\n".toList
          (writeMessage sessionList 500 ("Internal error: ".toList ++ nilFault)) ∧
    HandleCommands (commandsMap noPASV)
        (.line "LIST\r\n".toList :: .line "NOOP\r\n".toList :: [.eof]) session0
      = (handleCommand (commandsMap noPASV) "NOOP\r\n".toList
          (writeMessage sessionList 500 ("Internal error: ".toList ++ nilFault))).end_ ∧
    commandLoop (commandsMap noPASV)
        (.line "LIST\r\n".toList :: .line "NOOP\r\n".toList :: [.timeout]) sessionGreeted
      = commandLoop (commandsMap noPASV) [.timeout]
          (handleCommand (commandsMap noPASV) "NOOP\r\n".toList
            (writeMessage sessionList 500 ("Internal error: ".toList ++ nilFault))) :=
  handleCommand_recovers (commandsMap noPASV) "LIST\r\n".toList "NOOP\r\n".toList [.eof]
    [.timeout] session0 sessionGreeted sessionList ⟨false, handleLIST⟩ nilFault (by decide)
    (by decide) rfl (by decide) (by decide) (by decide) (by decide)

theorem NewProxyServer_daddy (c : clientHandler) (t : Int) (conn : Nat) (addr : Str) :
    (NewProxyServer c t conn addr).1.daddy = c.daddy := by
  unfold NewProxyServer
  split <;> rfl

theorem ReadFromOrigin_daddy (c : clientHandler) : (ReadFromOrigin c).1.daddy = c.daddy := by
  unfold ReadFromOrigin
  split <;> rfl

theorem SendToClient_daddy (c : clientHandler) (b : Str) : (SendToClient c b).1.daddy = c.daddy := by
  unfold SendToClient
  split <;> rfl

theorem Open_daddy (a : activeTransferHandler) (c : clientHandler) : (a.Open c).1.daddy = c.daddy := by
  unfold activeTransferHandler.Open
  cases hA : a.listener.Accept with
  | mk l oc =>
    cases oc with
    | none => rfl
    | some conn =>
      cases hp : a.proxyServer with
      | some proxy => simp only [hp]
      | none =>
        have h := NewProxyServer_daddy c 60 conn a.clientAddr.String
        simp only [hp]
        cases hN : NewProxyServer c 60 conn a.clientAddr.String with
        | mk c1 res =>
          rw [hN] at h
          cases res <;> exact h

theorem TransferOpen_daddy (c : clientHandler) : (TransferOpen c).1.daddy = c.daddy := by
  unfold TransferOpen
  split
  · rfl
  · rename_i a _
    have h := Open_daddy a c
    split
    rename_i heq
    rw [heq] at h
    exact h
  · rfl

theorem handleUSER_daddy (c : clientHandler) : (handleUSER c).1.daddy = c.daddy := by
  have h := NewProxyServer_daddy c c.daddy.ProxyTimeout 0 "localhost:2321".toList
  unfold handleUSER
  split
  · rename_i heq
    rw [heq] at h
    exact h
  · rename_i c1 _ heq
    rw [heq] at h
    have h2 := ReadFromOrigin_daddy c1
    simp only
    rw [h2]
    exact h

theorem handleAUTH_daddy (c : clientHandler) : (handleAUTH c).1.daddy = c.daddy := by
  unfold handleAUTH
  split <;> rfl

theorem handleLIST_daddy (c : clientHandler) : (handleLIST c).1.daddy = c.daddy := by
  unfold handleLIST
  split
  · rfl
  · have h := TransferOpen_daddy (SendToOriginWithProxy c c.line)
    simp only
    split
    · rename_i heq
      rw [heq] at h
      exact h
    · rename_i c2 proxy heq
      rw [heq] at h
      have h3 := ReadFromOrigin_daddy
        { c2 with net := { c2.net with started := c2.net.started ++ [proxy] } }
      split
      · rename_i heq2
        rw [heq2] at h3
        rw [h3]; exact h
      · rename_i c4 res heq2
        rw [heq2] at h3
        rw [SendToClient_daddy, h3]; exact h

theorem featLoop_daddy (script : List (Option Str)) :
    ∀ c : clientHandler, (featLoop script c).1.daddy = c.daddy := by
  induction script with
  | nil => intro c; rfl
  | cons x rest ih =>
    intro c
    cases x with
    | none => rfl
    | some b =>
      unfold featLoop
      have h := SendToClient_daddy
        { c with net := { c.net with originIn := rest, reads := c.net.reads + 1 } } b
      simp only
      split
      · rename_i heq
        rw [heq] at h
        exact h
      · rename_i c2 heq
        rw [heq] at h
        split
        · exact h
        · split
          · exact h
          · split
            · exact h
            · rw [ih c2]; exact h

theorem handleFEAT_daddy (c : clientHandler) : (handleFEAT c).1.daddy = c.daddy := by
  unfold handleFEAT
  split
  · rfl
  · simp only
    rw [featLoop_daddy]
    rfl

/-- Every handler of the registry leaves the connection counter alone, if
handlePASV does. -/
theorem commandsMap_counter (handlePASV : clientHandler → Run)
    (hP : ∀ c, (handlePASV c).1.daddy.ClientCounter = c.daddy.ClientCounter)
    (verb : Str) (d : CommandDescription) (h : commandsMap handlePASV verb = some d)
    (c : clientHandler) : (d.Fn c).1.daddy.ClientCounter = c.daddy.ClientCounter := by
  unfold commandsMap at h
  split at h
  · injection h with h; subst h; simp only; rw [handleUSER_daddy]
  · split at h
    · injection h with h; subst h; simp only; rw [handleAUTH_daddy]
    · split at h
      · injection h with h; subst h; exact hP c
      · split at h
        · injection h with h; subst h; simp only; rw [handleLIST_daddy]
        · split at h
          · injection h with h; subst h; simp only; rw [handleFEAT_daddy]
          · cases h

theorem dispatch_counter (cmdDesc : Option CommandDescription)
    (hc : ∀ d, cmdDesc = some d → ∀ c, (d.Fn c).1.daddy.ClientCounter = c.daddy.ClientCounter)
    (command line : Str) (c : clientHandler) :
    (dispatch cmdDesc command line c).1.daddy.ClientCounter = c.daddy.ClientCounter := by
  cases cmdDesc with
  | none =>
    simp only [dispatch]
    split <;> rfl
  | some d =>
    have h := hc d rfl c
    cases hf : d.Fn c with
    | mk c1 fault =>
      rw [hf] at h
      cases fault with
      | some r =>
        simp only [dispatch, hf]
        exact h
      | none =>
        simp only [dispatch, hf]
        split
        · exact h
        · exact h

theorem handleCommand_keeps_counter (cmds : Str → Option CommandDescription)
    (hc : ∀ verb d, cmds verb = some d →
      ∀ c, (d.Fn c).1.daddy.ClientCounter = c.daddy.ClientCounter)
    (line : Str) (c : clientHandler) :
    (handleCommand cmds line c).daddy.ClientCounter = c.daddy.ClientCounter := by
  have h := dispatch_counter (cmds (ToUpper (parseLine line).1)) (fun d hd => hc _ d hd)
    (parseLine line).1 line
    { c with command := ToUpper (parseLine line).1, param := (parseLine line).2, line := line }
  unfold handleCommand
  simp only
  cases hd : dispatch (cmds (ToUpper (parseLine line).1)) (parseLine line).1 line
    { c with command := ToUpper (parseLine line).1, param := (parseLine line).2, line := line } with
  | mk c1 fault =>
    rw [hd] at h
    cases fault with
    | some r => exact h
    | none => exact h

theorem commandLoop_counter (cmds : Str → Option CommandDescription)
    (hc : ∀ verb d, cmds verb = some d →
      ∀ c, (d.Fn c).1.daddy.ClientCounter = c.daddy.ClientCounter)
    (input : List ReadResult) :
    ∀ c : clientHandler, (commandLoop cmds input c).daddy.ClientCounter = c.daddy.ClientCounter := by
  induction input with
  | nil => intro c; rfl
  | cons r rest ih =>
    intro c
    unfold commandLoop
    split
    · rfl
    · cases r with
      | line l =>
        simp only
        rw [ih, handleCommand_keeps_counter cmds hc]
      | timeout => rfl
      | netError => rfl
      | eof => rfl
      | readError => rfl

/-- C9: whatever the client sends and however the reads end (rejection at the
connection ceiling, idle timeout, end of stream, another read error, a nil
reader), the connection counter after HandleCommands is its value at entry
minus one, given that handlePASV, which is outside src, leaves it alone. -/
theorem HandleCommands_counter (handlePASV : clientHandler → Run)
    (hP : ∀ c, (handlePASV c).1.daddy.ClientCounter = c.daddy.ClientCounter)
    (input : List ReadResult) (c : clientHandler) :
    (HandleCommands (commandsMap handlePASV) input c).daddy.ClientCounter
      = c.daddy.ClientCounter - 1 := by
  unfold HandleCommands
  split
  · simp only [clientHandler.end_]
    rw [commandLoop_counter _ (commandsMap_counter handlePASV hP)]
    rfl
  · rfl

theorem HandleCommands_counter_witness :
    (HandleCommands (commandsMap noPASV)
        [.line "USER bob\r\n".toList, .line "LIST\r\n".toList, .timeout] sessionDial).daddy.ClientCounter
      = sessionDial.daddy.ClientCounter - 1 :=
  HandleCommands_counter noPASV (fun _ => rfl)
    [.line "USER bob\r\n".toList, .line "LIST\r\n".toList, .timeout] sessionDial

end Pftp
